import Mathlib

/-!
Verification development for a TikTok batch-transcription web tool.

The development shallowly embeds the program's core logic:
* the string-keyed record maps (JS objects / `Map`s) as association lists,
* `runTranscription` (the sequential transcription-pipeline controller in
  `App.tsx`) as a recursive function over the work-set, producing an event
  trace, the final live-status map, the final durable cache, the success
  counter and the final status message,
* `handleMatch` (the URL reconciliation step),
* `getBase64FromUrl` (the audio fetcher's error wrapping),
* `sanitizeCsvField` / `downloadCsv` (the CSV exporter),
* the raw-item mapping stage of `fetchTikTokData` (the Apify scan client).

External effects (the HTTP fetch, the Gemini call, the user pressing the
Stop button, `Math.random()`) are modelled as explicit oracle parameters.
-/

/-- Association-list lookup, the embedding of a JS object property read
`m[k]`: the first binding for the key wins. -/
def lookupKey {α : Type} : List (String × α) → String → Option α
  | [], _ => none
  | (k', v) :: rest, k => if k' = k then some v else lookupKey rest k

/-- Association-list update, the embedding of a JS object property write
`m[k] = v` (and of `Map.set`): an existing binding is overwritten in place,
a new key is appended at the end, preserving insertion order. -/
def setKey {α : Type} (m : List (String × α)) (k : String) (v : α) : List (String × α) :=
  if m.any (fun p => p.1 == k) then m.map (fun p => if p.1 = k then (k, v) else p)
  else m ++ [(k, v)]

/-- JS truthiness of a string-valued property read `m[k]`: the key is bound
and its value is a non-empty string. -/
def truthy (m : List (String × String)) (k : String) : Bool :=
  match lookupKey m k with
  | some v => !(v == "")
  | none => false

/-- The scanned video record (`TikTokVideo` in `types.ts`). -/
structure TikTokAuthorMeta where
  name : String
  nickName : String
  avatar : String
deriving DecidableEq, Repr

structure TikTokVideoMeta where
  duration : Int
  height : Int
  width : Int
deriving DecidableEq, Repr

structure TikTokMusicMeta where
  musicName : String
  musicAuthor : String
  musicOriginal : Bool
deriving DecidableEq, Repr

structure TikTokVideo where
  id : String
  webVideoUrl : String
  text : String
  createTime : Int
  createTimeISO : String
  authorMeta : TikTokAuthorMeta
  diggCount : Int
  commentCount : Int
  shareCount : Int
  playCount : Int
  videoMeta : TikTokVideoMeta
  musicMeta : TikTokMusicMeta
deriving DecidableEq, Repr

/-- Per-item live status (`TranscriptState` entry status in `types.ts`). -/
inductive TStatus where
  | idle
  | matched
  | loading
  | success
  | error
deriving DecidableEq, Repr

/-- One entry of the live status map: `{status, text}`. -/
structure TranscriptEntry where
  status : TStatus
  text : String
deriving DecidableEq, Repr

/-- The session-transient live status map (`TranscriptState`). -/
abbrev TranscriptState := List (String × TranscriptEntry)

/-- The durable transcript cache (`TranscriptCache`). -/
abbrev TranscriptCache := List (String × String)

/-- Outcome of one item's fetch-then-transcribe attempt, abstracting the
two awaited calls in the loop body of `runTranscription`:
`getBase64FromUrl` throwing, `transcribeAudioWithGemini` throwing, or a
transcript being returned.  The message is the caught error's `.message`
(or `'Unknown error'`). -/
inductive ItemOutcome where
  | fetchErr (msg : String)
  | transcribeErr (msg : String)
  | ok (transcript : String)
deriving DecidableEq, Repr

/-- Observable events of a pipeline run, in program order:
`setStatus` calls, live-status map updates (`setTranscriptStates`), the
start of an item's audio fetch (`getBase64FromUrl` call), durable cache
writes (`setTranscriptCache`), and awaited inter-call delays. -/
inductive Ev where
  | statusMsg (s : String)
  | stateUpd (url : String) (st : TranscriptEntry)
  | attempt (url : String)
  | cacheUpd (url : String) (t : String)
  | delay (ms : Nat)
deriving DecidableEq, Repr

/-- `Đang xử lý ${i + 1} trên ${videosToTranscribe.length}: ${video.authorMeta.nickName}` -/
def processingMsg (n total : Nat) (nick : String) : String :=
  "Đang xử lý " ++ toString n ++ " trên " ++ toString total ++ ": " ++ nick

/-- `Quá trình đã được người dùng dừng lại. ${successCount} bản ghi đã được tạo.` -/
def stopMsg (succ : Nat) : String :=
  "Quá trình đã được người dùng dừng lại. " ++ toString succ ++ " bản ghi đã được tạo."

/-- `Hoàn tất phiên âm. Đã tạo mới ${successCount} bản ghi.` -/
def completedMsg (succ : Nat) : String :=
  "Hoàn tất phiên âm. Đã tạo mới " ++ toString succ ++ " bản ghi."

def loadingFetchEntry : TranscriptEntry := ⟨.loading, "Đang tải âm thanh..."⟩

def loadingAIEntry : TranscriptEntry := ⟨.loading, "Đang phiên âm với AI..."⟩

/-- Result of one pipeline run: the event trace, the final live-status map,
the final durable cache, the final success counter, and the last status
message set. -/
structure RunResult where
  events : List Ev
  transcriptStates : TranscriptState
  transcriptCache : TranscriptCache
  successCount : Nat
  finalStatus : String
deriving DecidableEq, Repr

/-- The body of one loop iteration of `runTranscription` after the stop
check (index `i` of `total`): publish the processing status, set the item's
live state to loading, call `getBase64FromUrl` (the `attempt` event), and
follow the item's outcome through the `try/catch`.  Returns the emitted
events and the updated live-status map, cache and success counter. -/
def processItem (v : TikTokVideo) (i total : Nat) (out : ItemOutcome)
    (st : TranscriptState) (cache : TranscriptCache) (succ : Nat) :
    List Ev × TranscriptState × TranscriptCache × Nat :=
  let url := v.webVideoUrl
  let e0 : List Ev :=
    [.statusMsg (processingMsg (i + 1) total v.authorMeta.nickName),
     .stateUpd url loadingFetchEntry, .attempt url]
  let st1 := setKey st url loadingFetchEntry
  match out with
  | .fetchErr m =>
      let es : TranscriptEntry := ⟨.error, "Lỗi: " ++ m⟩
      (e0 ++ [.stateUpd url es], setKey st1 url es, cache, succ)
  | .transcribeErr m =>
      let es : TranscriptEntry := ⟨.error, "Lỗi: " ++ m⟩
      (e0 ++ [.stateUpd url loadingAIEntry, .stateUpd url es],
       setKey (setKey st1 url loadingAIEntry) url es, cache, succ)
  | .ok t =>
      let ss : TranscriptEntry := ⟨.success, t⟩
      (e0 ++ [.stateUpd url loadingAIEntry, .stateUpd url ss, .cacheUpd url t],
       setKey (setKey st1 url loadingAIEntry) url ss, setKey cache url t, succ + 1)

/-- The loop of `runTranscription` over the remaining work-set.

The cooperative stop flag (`stopRequest.current`) is threaded as `flag`;
each read of the flag consumes one index `p` of the environment schedule
`envSet`, where `envSet p = true` means the user has requested a stop by
the time of the `p`-th read.  Reads happen at the top of each iteration, in
the guard of the inter-call delay (only when a next item exists), and in
the final `if (!stopRequest.current)` after the loop. -/
def runLoop (envSet : Nat → Bool) (outcome : Nat → ItemOutcome) :
    List TikTokVideo → Nat → Nat → Nat → Bool → TranscriptState → TranscriptCache →
    Nat → String → RunResult
  | [], _total, _i, p, flag, st, cache, succ, cur =>
      if flag || envSet p then ⟨[], st, cache, succ, cur⟩
      else ⟨[.statusMsg (completedMsg succ)], st, cache, succ, completedMsg succ⟩
  | v :: rest, total, i, p, flag, st, cache, succ, _cur =>
      if flag || envSet p then
        -- break: the stopped summary is published; the post-loop check then
        -- reads a flag that is already true, so no completed message follows.
        ⟨[.statusMsg (stopMsg succ)], st, cache, succ, stopMsg succ⟩
      else
        let blk := processItem v i total (outcome i) st cache succ
        let cur2 := processingMsg (i + 1) total v.authorMeta.nickName
        if i < total - 1 then
          let f2 := envSet (p + 1)
          let tail := runLoop envSet outcome rest total (i + 1) (p + 2) f2
            blk.2.1 blk.2.2.1 blk.2.2.2 cur2
          ⟨blk.1 ++ (if f2 then [] else [.delay 4000]) ++ tail.events,
           tail.transcriptStates, tail.transcriptCache, tail.successCount, tail.finalStatus⟩
        else
          let tail := runLoop envSet outcome rest total (i + 1) (p + 1) false
            blk.2.1 blk.2.2.1 blk.2.2.2 cur2
          ⟨blk.1 ++ tail.events,
           tail.transcriptStates, tail.transcriptCache, tail.successCount, tail.finalStatus⟩

/-- The work-set derivation of `runTranscription`:
`videos.filter(v => mp3UrlMap[v.webVideoUrl] && !transcriptCache[v.webVideoUrl])`. -/
def videosToTranscribe (videos : List TikTokVideo) (mp3UrlMap : List (String × String))
    (transcriptCache : TranscriptCache) : List TikTokVideo :=
  videos.filter fun v =>
    truthy mp3UrlMap v.webVideoUrl && !(truthy transcriptCache v.webVideoUrl)

/-- The pipeline controller `runTranscription` of `App.tsx`.

`prevStop` is the value of the mutable stop flag `stopRequest.current` left
over from before this run; the function's first action — mirroring
`stopRequest.current = false` — discards it.  `status0` is the status text
displayed when the run starts.  `outcome i` abstracts item `i`'s awaited
fetch/transcribe calls, and `envSet` is the stop-request schedule
(see `runLoop`). -/
def runTranscription (prevStop : Bool) (videos : List TikTokVideo)
    (mp3UrlMap : List (String × String)) (transcriptCache : TranscriptCache)
    (transcriptStates : TranscriptState) (status0 : String)
    (outcome : Nat → ItemOutcome) (envSet : Nat → Bool) : RunResult :=
  let _ := prevStop
  let items := videosToTranscribe videos mp3UrlMap transcriptCache
  runLoop envSet outcome items items.length 0 0 false transcriptStates transcriptCache 0 status0

/-! ## URL reconciliation (`handleMatch` in `App.tsx`) -/

/-- `s.split(sep)` at the character level: the (possibly empty) segments
between occurrences of the separator character. -/
def splitOnChar (sep : Char) : List Char → List (List Char)
  | [] => [[]]
  | c :: rest =>
      match splitOnChar sep rest with
      | [] => if c = sep then [[], []] else [[c]]
      | s :: ss => if c = sep then [] :: s :: ss else (c :: s) :: ss

/-- `l.trim()` at the character level: strip leading and trailing
whitespace. -/
def trimChars (l : List Char) : List Char :=
  ((l.dropWhile Char.isWhitespace).reverse.dropWhile Char.isWhitespace).reverse

/-- `input.split('\n').map(l => l.trim()).filter(Boolean)` -/
def splitTrimFilter (s : String) : List String :=
  (((splitOnChar '\n' s.data).map trimChars).filter (fun l => !l.isEmpty)).map String.mk

/-- `Lỗi: Vui lòng nhập URL vào cả hai ô.` -/
def errBothMsg : String := "Lỗi: Vui lòng nhập URL vào cả hai ô."

/-- `Lỗi: Số lượng URL MP3 không khớp với số lượng URL video.` -/
def errCountMsg : String := "Lỗi: Số lượng URL MP3 không khớp với số lượng URL video."

/-- The zero-match status message of `handleMatch`. -/
def zeroMatchMsg : String :=
  "Không tìm thấy video trùng khớp. Vui lòng kiểm tra lại các URL video có khớp với danh sách video đã quét ở Bước 1 không."

/-- The positive success status message of `handleMatch`. -/
def matchedOkMsg (count total : Nat) : String :=
  "Đã đối chiếu thành công " ++ toString count ++ " trên " ++ toString total ++ " video đã quét."

/-- The `userInputMap` construction: `for i: userInputMap.set(videoLines[i], mp3Lines[i])`.
Later occurrences of the same video URL overwrite earlier ones, as `Map.set` does. -/
def buildUserMap (videoLines mp3Lines : List String) : List (String × String) :=
  (videoLines.zip mp3Lines).foldl (fun m p => setKey m p.1 p.2) []

/-- One step of the `videos.forEach` loop of `handleMatch`. -/
def matchStep (userMap : List (String × String))
    (acc : List (String × String) × Nat) (video : TikTokVideo) :
    List (String × String) × Nat :=
  match lookupKey userMap video.webVideoUrl with
  | some m => (setKey acc.1 video.webVideoUrl m, acc.2 + 1)
  | none => acc

/-- The `videos.forEach` loop of `handleMatch`, restricting the positional
map to scanned video URLs and counting matches. -/
def matchFold (videos : List TikTokVideo) (userMap : List (String × String)) :
    List (String × String) × Nat :=
  videos.foldl (matchStep userMap) ([], 0)

/-- Result of `handleMatch`: the status text, the matched count, and the
`mp3UrlMap` handed to the pipeline. -/
structure MatchResult where
  matchStatus : String
  matchedCount : Nat
  mp3UrlMap : List (String × String)
deriving DecidableEq, Repr

/-- `handleMatch` of `App.tsx`: split/trim/filter both inputs, fail on an
empty side or a length mismatch (clearing the map), otherwise build the
positional map and restrict it to the scanned videos. -/
def handleMatch (videos : List TikTokVideo) (mp3UrlsInput videoUrlsInput : String) :
    MatchResult :=
  let mp3Lines := splitTrimFilter mp3UrlsInput
  let videoLines := splitTrimFilter videoUrlsInput
  if mp3Lines.length = 0 || videoLines.length = 0 then
    ⟨errBothMsg, 0, []⟩
  else if mp3Lines.length ≠ videoLines.length then
    ⟨errCountMsg, 0, []⟩
  else
    let userInputMap := buildUserMap videoLines mp3Lines
    let r := matchFold videos userInputMap
    let status := if r.2 > 0 then matchedOkMsg r.2 videos.length else zeroMatchMsg
    ⟨status, r.2, r.1⟩

/-! ## Audio fetcher (`getBase64FromUrl` in `App.tsx`) -/

/-- Outcome of the `FileReader.readAsDataURL` step: the produced data URL,
or a reader failure (the rejection value's description). -/
inductive ReaderOutcome where
  | ok (dataUrl : String)
  | err (e : String)
deriving DecidableEq, Repr

/-- The environment of one `getBase64FromUrl` call: the transport response
(`response.ok`, `response.status`), the blob's declared MIME type, and the
`FileReader` outcome. -/
structure FetchResponse where
  respOk : Bool
  status : Nat
  mimeType : String
  reader : ReaderOutcome
deriving DecidableEq, Repr

/-- The fixed user-facing message thrown by `getBase64FromUrl`'s catch block. -/
def corsMsg : String :=
  "Could not fetch audio. This may be a CORS issue. Ensure the audio URL allows cross-origin requests."

/-- `Could not convert file to base64.` -/
def base64FailMsg : String := "Could not convert file to base64."

/-- `getBase64FromUrl` of `App.tsx`.  The transport-failure and
non-audio-content-type throws happen inside the `try` and are replaced by
the single `corsMsg` error in the catch block (the original errors are only
logged; `blob.type.startsWith('audio/')` is the character-prefix test).
The `FileReader` promise is *returned* from the `try` without being awaited
there, so its rejection is never seen by the catch block and propagates
unwrapped. -/
def getBase64FromUrl (resp : FetchResponse) : Except String (String × String) :=
  if resp.respOk = false then .error corsMsg
  else if ¬ ("audio/".data.isPrefixOf resp.mimeType.data) = true then .error corsMsg
  else
    match resp.reader with
    | .err e => .error e
    | .ok dataUrl =>
        match (splitOnChar ',' dataUrl.data)[1]? with
        | none => .error base64FailMsg
        | some b =>
            if b = [] then .error base64FailMsg
            else .ok (String.mk b, resp.mimeType)

/-! ## CSV export (`csvHelper.ts`) -/

/-- `stringField.replace(/"/g, '""')` at the character level: every double
quote is doubled. -/
def escapeQuotes (l : List Char) : List Char :=
  l.flatMap (fun c => if c = '"' then ['"', '"'] else [c])

/-- Does the field contain the delimiter, the quote character, or a line
break (`/[",\n]/.test(stringField)`)? -/
def csvSpecial (c : Char) : Bool :=
  c = '"' || c = ',' || c = '\n'

/-- `sanitizeCsvField` of `csvHelper.ts`, on string fields: quote-wrap with
internal quotes doubled when the field contains a comma, a quote or a
newline; otherwise return it unchanged. -/
def sanitizeCsvField (s : String) : String :=
  if s.data.any csvSpecial then String.mk ('"' :: escapeQuotes s.data ++ ['"'])
  else s

/-- The fixed 18-entry header row of the export. -/
def csvHeaders : List String :=
  ["ID", "URL", "Timestamp ISO", "Author Name", "Author Nickname", "Author Avatar",
   "Description", "Likes", "Comments", "Shares", "Plays", "Duration (s)",
   "Video Height", "Video Width", "Music Name", "Music Author", "Original Music",
   "Transcript"]

/-- One row of the export, as the list of field strings the code joins with
commas.  `transcripts[video.webVideoUrl] || 'N/A'` substitutes the sentinel
when the cache holds no (truthy) entry for the record's URL. -/
def csvRow (transcripts : TranscriptCache) (video : TikTokVideo) : List String :=
  let transcript :=
    match lookupKey transcripts video.webVideoUrl with
    | some t => if t = "" then "N/A" else t
    | none => "N/A"
  [sanitizeCsvField video.id,
   sanitizeCsvField video.webVideoUrl,
   sanitizeCsvField video.createTimeISO,
   sanitizeCsvField video.authorMeta.name,
   sanitizeCsvField video.authorMeta.nickName,
   sanitizeCsvField video.authorMeta.avatar,
   sanitizeCsvField video.text,
   toString video.diggCount,
   toString video.commentCount,
   toString video.shareCount,
   toString video.playCount,
   toString video.videoMeta.duration,
   toString video.videoMeta.height,
   toString video.videoMeta.width,
   sanitizeCsvField video.musicMeta.musicName,
   sanitizeCsvField video.musicMeta.musicAuthor,
   (if video.musicMeta.musicOriginal then "true" else "false"),
   sanitizeCsvField transcript]

/-- `downloadCsv` of `csvHelper.ts`: with no records it alerts and produces
no file (`none`); otherwise it builds the BOM-prefixed CSV text. -/
def downloadCsv (videos : List TikTokVideo) (transcripts : TranscriptCache) :
    Option String :=
  if videos.length = 0 then none
  else
    some ("﻿" ++ String.intercalate "," csvHeaders ++ "\n"
      ++ String.intercalate "\n"
        (videos.map (fun v => String.intercalate "," (csvRow transcripts v))))

/-- Modelled from the spec: a standard CSV-table reader's decoding of a
single emitted field ("decodable back to the original string by a standard
CSV-table reader").  A field starting with a quote must end with a quote
and its body must have every quote doubled; an unquoted field must contain
no quote, delimiter or line break and denotes itself. -/
def csvQuotedBody : List Char → Option (List Char)
  | [] => some []
  | c :: rest =>
      if c = '"' then
        match rest with
        | [] => none
        | c2 :: rest2 =>
            if c2 = '"' then (csvQuotedBody rest2).map (fun l => '"' :: l) else none
      else (csvQuotedBody rest).map (fun l => c :: l)

/-- Modelled from the spec: decode one CSV field (see `csvQuotedBody`). -/
def csvDecodeField (s : String) : Option String :=
  match s.data with
  | [] => some ""
  | c :: rest =>
      if c = '"' then
        match rest.getLast? with
        | some c2 =>
            if c2 = '"' then (csvQuotedBody rest.dropLast).map String.mk else none
        | none => none
      else if (c :: rest).any csvSpecial then none else some (String.mk (c :: rest))

/-! ## Scan-result mapping (`fetchTikTokData` in `apifyService.ts`) -/

/-- A raw dataset item as the mapping stage sees it: any field (or nested
object) may be absent (`undefined`/`null`). -/
structure RawAuthorMeta where
  name : Option String
  nickName : Option String
  avatar : Option String
deriving DecidableEq, Repr

structure RawVideoMeta where
  duration : Option Int
  height : Option Int
  width : Option Int
deriving DecidableEq, Repr

structure RawMusicMeta where
  musicName : Option String
  musicAuthor : Option String
  musicOriginal : Option Bool
deriving DecidableEq, Repr

structure RawItem where
  id : Option String
  webVideoUrl : Option String
  text : Option String
  createTime : Option Int
  createTimeISO : Option String
  authorMeta : Option RawAuthorMeta
  diggCount : Option Int
  commentCount : Option Int
  shareCount : Option Int
  playCount : Option Int
  videoMeta : Option RawVideoMeta
  musicMeta : Option RawMusicMeta
deriving DecidableEq, Repr

/-- The per-item mapping of `fetchTikTokData`'s `rawData.map`.  `rand` is
the string rendering of the `Math.random()` call evaluated for this item
(used only in the `fallback-${Math.random()}` identity). -/
def mapRawItem (rand : String) (item : RawItem) : TikTokVideo :=
  { id :=
      match item.id with
      | some s => s
      | none =>
          match item.webVideoUrl with
          | some u => u
          | none => "fallback-" ++ rand
    webVideoUrl := item.webVideoUrl.getD ""
    text := item.text.getD ""
    createTime := item.createTime.getD 0
    createTimeISO := item.createTimeISO.getD "1970-01-01T00:00:00.000Z"
    authorMeta :=
      { name := (item.authorMeta.bind (fun a => a.name)).getD "Unknown"
        nickName :=
          match item.authorMeta.bind (fun a => a.nickName) with
          | some n => n
          | none => (item.authorMeta.bind (fun a => a.name)).getD "Unknown"
        avatar := (item.authorMeta.bind (fun a => a.avatar)).getD "" }
    diggCount := item.diggCount.getD 0
    commentCount := item.commentCount.getD 0
    shareCount := item.shareCount.getD 0
    playCount := item.playCount.getD 0
    videoMeta :=
      { duration := (item.videoMeta.bind (fun m => m.duration)).getD 0
        height := (item.videoMeta.bind (fun m => m.height)).getD 0
        width := (item.videoMeta.bind (fun m => m.width)).getD 0 }
    musicMeta :=
      { musicName := (item.musicMeta.bind (fun m => m.musicName)).getD "N/A"
        musicAuthor := (item.musicMeta.bind (fun m => m.musicAuthor)).getD "N/A"
        musicOriginal := (item.musicMeta.bind (fun m => m.musicOriginal)).getD false } }

/-- The mapping stage of `fetchTikTokData` over the whole dataset, with
`rand i` the `Math.random()` rendering drawn while mapping item `i`. -/
def fetchTikTokDataMap (rand : Nat → String) : Nat → List RawItem → List TikTokVideo
  | _, [] => []
  | i, item :: rest => mapRawItem (rand i) item :: fetchTikTokDataMap rand (i + 1) rest

/-- A raw item with every field absent. -/
def blankRawItem : RawItem :=
  ⟨none, none, none, none, none, none, none, none, none, none, none, none⟩

/-! ## Association-list lemmas -/

theorem lookupKey_eq_none_iff {α : Type} (m : List (String × α)) (k : String) :
    lookupKey m k = none ↔ k ∉ m.map Prod.fst := by
  induction m with
  | nil => simp [lookupKey]
  | cons p rest ih =>
      obtain ⟨k', v⟩ := p
      by_cases h : k' = k
      · subst h
        simp [lookupKey]
      · simp [lookupKey, h, ih, Ne.symm h]

theorem lookupKey_some_mem {α : Type} {m : List (String × α)} {k : String} {v : α}
    (h : lookupKey m k = some v) : (k, v) ∈ m := by
  induction m with
  | nil => simp [lookupKey] at h
  | cons p rest ih =>
      obtain ⟨k', v'⟩ := p
      by_cases hk : k' = k
      · subst hk
        simp [lookupKey] at h
        simp [h]
      · simp [lookupKey, hk] at h
        exact List.mem_cons_of_mem _ (ih h)

theorem keys_any_iff {α : Type} (m : List (String × α)) (k : String) :
    (m.any fun p => p.1 == k) = true ↔ k ∈ m.map Prod.fst := by
  simp only [List.any_eq_true, List.mem_map, beq_iff_eq]

theorem lookupKey_map_self {α : Type} (m : List (String × α)) (k : String) (v : α) :
    lookupKey (m.map fun p => if p.1 = k then (k, v) else p) k
      = if (m.any fun p => p.1 == k) = true then some v else none := by
  induction m with
  | nil => simp [lookupKey]
  | cons p rest ih =>
      obtain ⟨k', v'⟩ := p
      by_cases hk : k' = k
      · subst hk
        simp only [List.map_cons]
        rw [if_pos trivial]
        simp [lookupKey]
      · simp only [List.map_cons]
        rw [show ((if (k', v').1 = k then (k, v) else (k', v')) = (k', v')) from if_neg hk]
        simp only [lookupKey, if_neg hk, ih, List.any_cons]
        have hb : (k' == k) = false := by simp [hk]
        simp only [hb, Bool.false_or]

theorem lookupKey_map_ne {α : Type} (m : List (String × α)) (k q : String) (v : α)
    (h : q ≠ k) :
    lookupKey (m.map fun p => if p.1 = k then (k, v) else p) q = lookupKey m q := by
  induction m with
  | nil => simp
  | cons p rest ih =>
      obtain ⟨k', v'⟩ := p
      simp only [List.map_cons]
      by_cases hk : k' = k
      · subst hk
        rw [show ((if (k', v').1 = k' then (k', v) else (k', v')) = (k', v)) from if_pos rfl]
        simp only [lookupKey, if_neg (fun he => h he.symm : ¬ k' = q), ih]
      · rw [show ((if (k', v').1 = k then (k, v) else (k', v')) = (k', v')) from if_neg hk]
        by_cases hq : k' = q
        · subst hq
          simp [lookupKey]
        · simp only [lookupKey, if_neg hq, ih]

theorem lookupKey_append_some {α : Type} {m₁ : List (String × α)} (m₂ : List (String × α))
    {k : String} {v : α} (h : lookupKey m₁ k = some v) :
    lookupKey (m₁ ++ m₂) k = some v := by
  induction m₁ with
  | nil => simp [lookupKey] at h
  | cons p rest ih =>
      obtain ⟨k', v'⟩ := p
      by_cases hk : k' = k
      · subst hk
        simp [lookupKey] at h ⊢
        exact h
      · simp [lookupKey, hk] at h ⊢
        exact ih h

theorem lookupKey_append_none {α : Type} {m₁ : List (String × α)} (m₂ : List (String × α))
    {k : String} (h : lookupKey m₁ k = none) :
    lookupKey (m₁ ++ m₂) k = lookupKey m₂ k := by
  induction m₁ with
  | nil => simp
  | cons p rest ih =>
      obtain ⟨k', v'⟩ := p
      by_cases hk : k' = k
      · subst hk
        simp [lookupKey] at h
      · simp [lookupKey, hk] at h ⊢
        exact ih h

theorem lookupKey_setKey_self {α : Type} (m : List (String × α)) (k : String) (v : α) :
    lookupKey (setKey m k v) k = some v := by
  unfold setKey
  by_cases ha : (m.any fun p => p.1 == k) = true
  · rw [if_pos ha, lookupKey_map_self, if_pos ha]
  · rw [if_neg ha]
    have hnone : lookupKey m k = none := by
      rw [lookupKey_eq_none_iff]
      intro hmem
      exact ha ((keys_any_iff m k).mpr hmem)
    rw [lookupKey_append_none _ hnone]
    simp [lookupKey]

theorem lookupKey_setKey_ne {α : Type} (m : List (String × α)) (k q : String) (v : α)
    (h : q ≠ k) : lookupKey (setKey m k v) q = lookupKey m q := by
  unfold setKey
  by_cases ha : (m.any fun p => p.1 == k) = true
  · rw [if_pos ha, lookupKey_map_ne _ _ _ _ h]
  · rw [if_neg ha]
    cases hm : lookupKey m q with
    | some w => rw [lookupKey_append_some _ hm]
    | none =>
        rw [lookupKey_append_none _ hm]
        have hkq : ¬ k = q := fun he => h he.symm
        simp [lookupKey, hkq]

theorem setKey_append_left {α : Type} (m₁ m₂ : List (String × α)) (k : String) (v : α)
    (h : k ∉ m₁.map Prod.fst) : setKey (m₁ ++ m₂) k v = m₁ ++ setKey m₂ k v := by
  have h1 : (m₁.any fun p => p.1 == k) = false := by
    rw [Bool.eq_false_iff]
    intro hc
    exact h ((keys_any_iff m₁ k).mp hc)
  have hmap : (m₁.map fun p => if p.1 = k then (k, v) else p) = m₁ := by
    conv_rhs => rw [← List.map_id m₁]
    apply List.map_congr_left
    intro p hp
    have hne : p.1 ≠ k := by
      intro he
      exact h (List.mem_map.mpr ⟨p, hp, he⟩)
    simp [hne]
  unfold setKey
  rw [List.any_append, h1, Bool.false_or]
  by_cases h2 : (m₂.any fun p => p.1 == k) = true
  · rw [if_pos h2, if_pos h2, List.map_append, hmap]
  · rw [if_neg h2, if_neg h2, List.append_assoc]

/-! ## CSV sanitizer round trip (C9) -/

theorem string_mk_data (s : String) : String.mk s.data = s := rfl

theorem csvQuotedBody_cons_ne (c : Char) (xs : List Char) (hc : ¬ c = '"') :
    csvQuotedBody (c :: xs) = (csvQuotedBody xs).map (fun l => c :: l) := by
  cases xs with
  | nil => simp [csvQuotedBody, hc]
  | cons d ds => simp [csvQuotedBody, hc]

theorem csvQuotedBody_quote_quote (xs : List Char) :
    csvQuotedBody ('"' :: '"' :: xs) = (csvQuotedBody xs).map (fun l => '"' :: l) := by
  simp [csvQuotedBody]

theorem csvQuotedBody_escapeQuotes (l : List Char) :
    csvQuotedBody (escapeQuotes l) = some l := by
  induction l with
  | nil => rfl
  | cons c rest ih =>
      by_cases hc : c = '"'
      · subst hc
        have he : escapeQuotes ('"' :: rest) = '"' :: '"' :: escapeQuotes rest := by
          simp [escapeQuotes]
        rw [he, csvQuotedBody_quote_quote, ih]
        rfl
      · have he : escapeQuotes (c :: rest) = c :: escapeQuotes rest := by
          simp [escapeQuotes, hc]
        rw [he, csvQuotedBody_cons_ne c _ hc, ih]
        rfl

/-- Claim C9: for every string field value containing a comma, a double
quote or a line break, `sanitizeCsvField` emits the value wrapped in double
quotes with every internal double quote doubled, and a standard CSV reader
decodes the emitted field back to the original string; fields without those
characters are emitted unchanged. -/
theorem sanitizeCsvField_roundtrip (s : String) :
    csvDecodeField (sanitizeCsvField s) = some s
    ∧ (s.data.any csvSpecial = false → sanitizeCsvField s = s)
    ∧ (s.data.any csvSpecial = true →
        sanitizeCsvField s = String.mk ('"' :: escapeQuotes s.data ++ ['"'])) := by
  refine ⟨?_, ?_, ?_⟩
  · by_cases h : s.data.any csvSpecial = true
    · have hs : sanitizeCsvField s = String.mk ('"' :: escapeQuotes s.data ++ ['"']) := by
        unfold sanitizeCsvField
        rw [if_pos h]
      rw [hs]
      show csvDecodeField (String.mk ('"' :: (escapeQuotes s.data ++ ['"']))) = some s
      unfold csvDecodeField
      rw [show escapeQuotes s.data ++ ['"'] = (escapeQuotes s.data).concat '"' from
        (List.concat_eq_append _ _).symm]
      simp [List.getLast?_concat, List.dropLast_concat, csvQuotedBody_escapeQuotes,
        string_mk_data]
    · have hs : sanitizeCsvField s = s := by
        unfold sanitizeCsvField
        rw [if_neg h]
      rw [hs]
      have hf : s.data.any csvSpecial = false := by
        simpa using h
      cases hd : s.data with
      | nil =>
          have hse : s = "" := by
            have := congrArg String.mk hd
            rwa [string_mk_data] at this
          rw [hse]
          rfl
      | cons c rest =>
          have hse : s = String.mk (c :: rest) := by
            have := congrArg String.mk hd
            rwa [string_mk_data] at this
          rw [hd] at hf
          simp only [List.any_cons, Bool.or_eq_false_iff] at hf
          have hcq : ¬ c = '"' := by
            intro he
            subst he
            simp [csvSpecial] at hf
          have hof : ((c :: rest).any csvSpecial) = false := by
            simp [List.any_cons, hf.1, hf.2]
          rw [hse]
          show csvDecodeField (String.mk (c :: rest)) = some (String.mk (c :: rest))
          unfold csvDecodeField
          simp only [if_neg hcq, hof, Bool.false_eq_true, if_false]
  · intro h
    unfold sanitizeCsvField
    rw [if_neg (by simp [h])]
  · intro h
    unfold sanitizeCsvField
    rw [if_pos h]

/-! ## Audio fetcher error wrapping (C7) -/

/-- Claim C7 counterexample: a transport failure and a non-audio
content-type failure — two distinct failure conditions — surface as the
very same error value, the fixed cross-origin message, so the original
distinguishing condition is not preserved; and a base64-encoding failure
surfaces without the cross-origin note at all. -/
theorem getBase64FromUrl_collapse :
    getBase64FromUrl ⟨false, 500, "audio/mpeg", .ok "data:audio/mpeg;base64,QUJD"⟩
      = getBase64FromUrl ⟨true, 200, "text/html", .ok "data:text/html;base64,QUJD"⟩
    ∧ getBase64FromUrl ⟨false, 500, "audio/mpeg", .ok "data:audio/mpeg;base64,QUJD"⟩
        = Except.error corsMsg
    ∧ getBase64FromUrl ⟨true, 200, "audio/mpeg", .ok "nocomma"⟩
        = Except.error base64FailMsg
    ∧ base64FailMsg ≠ corsMsg := by
  refine ⟨rfl, rfl, rfl, by decide⟩

/-- Claim C7 (amended): every transport failure and every non-audio
content-type failure is surfaced as the single fixed user-facing message
noting the likely cross-origin cause (so those two conditions are not
distinguishable from the surfaced error), while a reader/encoding failure
propagates its own unwrapped error. -/
theorem getBase64FromUrl_wrapping (resp : FetchResponse) :
    (resp.respOk = false → getBase64FromUrl resp = Except.error corsMsg)
    ∧ (("audio/".data.isPrefixOf resp.mimeType.data) = false →
        getBase64FromUrl resp = Except.error corsMsg)
    ∧ (∀ e, resp.reader = ReaderOutcome.err e → resp.respOk = true →
        ("audio/".data.isPrefixOf resp.mimeType.data) = true →
        getBase64FromUrl resp = Except.error e) := by
  obtain ⟨rok, rstatus, rmime, rreader⟩ := resp
  refine ⟨?_, ?_, ?_⟩
  · intro h
    have h' : rok = false := h
    subst h'
    rfl
  · intro h
    have h' : ("audio/".data.isPrefixOf rmime.data) = false := h
    cases rok with
    | false => rfl
    | true =>
        show getBase64FromUrl ⟨true, rstatus, rmime, rreader⟩ = Except.error corsMsg
        unfold getBase64FromUrl
        rw [if_neg (by simp), if_pos (by simp [h'])]
  · intro e hr h1 h2
    have h1' : rok = true := h1
    have hr' : rreader = ReaderOutcome.err e := hr
    have h2' : ("audio/".data.isPrefixOf rmime.data) = true := h2
    subst h1' hr'
    show getBase64FromUrl ⟨true, rstatus, rmime, ReaderOutcome.err e⟩ = Except.error e
    unfold getBase64FromUrl
    rw [if_neg (by simp), if_neg (by simp [h2'])]

theorem getBase64FromUrl_wrapping_witness :
    ((⟨false, 500, "audio/mpeg", .ok "x"⟩ : FetchResponse).respOk = false)
    ∧ getBase64FromUrl ⟨false, 500, "audio/mpeg", .ok "x"⟩ = Except.error corsMsg :=
  ⟨rfl, (getBase64FromUrl_wrapping ⟨false, 500, "audio/mpeg", .ok "x"⟩).1 rfl⟩

/-! ## Scan-result mapping (C10) -/

theorem mapRawItem_det (r₁ r₂ : String) (item : RawItem)
    (h : item.id ≠ none ∨ item.webVideoUrl ≠ none) :
    mapRawItem r₁ item = mapRawItem r₂ item := by
  rcases hid : item.id with _ | s
  · rcases hurl : item.webVideoUrl with _ | u
    · rcases h with h | h
      · exact absurd hid h
      · exact absurd hurl h
    · simp [mapRawItem, hid, hurl]
  · simp [mapRawItem, hid]

/-- Claim C10: the scan-result record mapping is total (one record per raw
item, every absent field defaulted, no failure), and it is deterministic —
independent of the random draws — for every raw item carrying an `id` or a
`webVideoUrl`; an item lacking both gets the identity
`fallback-${Math.random()}`, so two runs on the same input can differ. -/
theorem fetchTikTokDataMap_props (raw : List RawItem) (r₁ r₂ : Nat → String) (i : Nat) :
    (fetchTikTokDataMap r₁ i raw).length = raw.length
    ∧ ((∀ item ∈ raw, item.id ≠ none ∨ item.webVideoUrl ≠ none) →
        fetchTikTokDataMap r₁ i raw = fetchTikTokDataMap r₂ i raw)
    ∧ (mapRawItem "0.1" blankRawItem).id = "fallback-" ++ "0.1"
    ∧ mapRawItem "0.1" blankRawItem ≠ mapRawItem "0.2" blankRawItem := by
  refine ⟨?_, ?_, rfl, by decide⟩
  · induction raw generalizing i with
    | nil => rfl
    | cons item rest ih => simp [fetchTikTokDataMap, ih]
  · intro h
    induction raw generalizing i with
    | nil => rfl
    | cons item rest ih =>
        have h1 := h item (List.mem_cons_self item rest)
        have h2 : ∀ it ∈ rest, it.id ≠ none ∨ it.webVideoUrl ≠ none :=
          fun it hit => h it (List.mem_cons_of_mem _ hit)
        simp only [fetchTikTokDataMap, List.cons.injEq]
        exact ⟨mapRawItem_det (r₁ i) (r₂ i) item h1, ih (i + 1) h2⟩

theorem fetchTikTokDataMap_props_witness :
    (∀ item ∈ [{ blankRawItem with id := some "7" }], item.id ≠ none ∨ item.webVideoUrl ≠ none)
    ∧ fetchTikTokDataMap (fun _ => "0.1") 0 [{ blankRawItem with id := some "7" }]
        = fetchTikTokDataMap (fun _ => "0.2") 0 [{ blankRawItem with id := some "7" }] :=
  ⟨by decide,
   (fetchTikTokDataMap_props [{ blankRawItem with id := some "7" }]
     (fun _ => "0.1") (fun _ => "0.2") 0).2.1 (by decide)⟩

/-! ## CSV export rows (C8) -/

/-- Claim C8: for every non-empty record list and every cache, the export
produces the CSV text with exactly one row per record regardless of
transcription outcome (18 fields each, matching the 18 headers), and the
transcript field of a record whose URL has no cache entry is the sentinel
`N/A`. -/
theorem downloadCsv_rows (videos : List TikTokVideo) (transcripts : TranscriptCache)
    (h : videos ≠ []) :
    downloadCsv videos transcripts
      = some ("﻿" ++ String.intercalate "," csvHeaders ++ "\n"
          ++ String.intercalate "\n"
            (videos.map (fun v => String.intercalate "," (csvRow transcripts v))))
    ∧ (videos.map (fun v => csvRow transcripts v)).length = videos.length
    ∧ csvHeaders.length = 18
    ∧ (∀ v, (csvRow transcripts v).length = 18)
    ∧ (∀ v, lookupKey transcripts v.webVideoUrl = none →
        (csvRow transcripts v).getLast? = some "N/A") := by
  refine ⟨?_, by simp, rfl, fun v => rfl, ?_⟩
  · unfold downloadCsv
    rw [if_neg (by simpa using h)]
  · intro v hm
    simp only [csvRow, hm]
    rfl

theorem downloadCsv_rows_witness :
    ([(⟨"i", "u", "t", 0, "iso", ⟨"a", "n", "av"⟩, 1, 2, 3, 4, ⟨5, 6, 7⟩,
        ⟨"m", "ma", true⟩⟩ : TikTokVideo)] ≠ [])
    ∧ csvHeaders.length = 18 :=
  ⟨by decide,
   (downloadCsv_rows [⟨"i", "u", "t", 0, "iso", ⟨"a", "n", "av"⟩, 1, 2, 3, 4, ⟨5, 6, 7⟩,
      ⟨"m", "ma", true⟩⟩] [] (by decide)).2.2.1⟩

/-! ## URL reconciliation lemmas (C5, C6) -/

theorem setKey_not_mem {α : Type} (m : List (String × α)) (k : String) (v : α)
    (h : k ∉ m.map Prod.fst) : setKey m k v = m ++ [(k, v)] := by
  unfold setKey
  rw [if_neg (fun hc => h ((keys_any_iff m k).mp hc))]

theorem lookupKey_of_mem_nodup {α : Type} {ps : List (String × α)} {k : String} {v : α}
    (hmem : (k, v) ∈ ps) (hnd : (ps.map Prod.fst).Nodup) : lookupKey ps k = some v := by
  induction ps with
  | nil => simp at hmem
  | cons p rest ih =>
      obtain ⟨k', v'⟩ := p
      simp only [List.map_cons, List.nodup_cons] at hnd
      rcases List.mem_cons.mp hmem with he | hm
      · obtain ⟨hk, hv⟩ := Prod.mk.injEq .. ▸ he
        subst hk hv
        simp [lookupKey]
      · have hk : k' ≠ k := by
          intro he
          subst he
          exact hnd.1 (List.mem_map.mpr ⟨(k', v), hm, rfl⟩)
        simp [lookupKey, hk, ih hm hnd.2]

theorem foldl_setKey_lookup (ps : List (String × String)) (acc : List (String × String))
    (k : String) :
    lookupKey (ps.foldl (fun m p => setKey m p.1 p.2) acc) k
      = match lookupKey ps.reverse k with
        | some v => some v
        | none => lookupKey acc k := by
  induction ps generalizing acc with
  | nil => simp [lookupKey]
  | cons p rest ih =>
      obtain ⟨k', v'⟩ := p
      simp only [List.foldl_cons, List.reverse_cons]
      rw [ih]
      cases hr : lookupKey rest.reverse k with
      | some w => rw [lookupKey_append_some _ hr]
      | none =>
          rw [lookupKey_append_none _ hr]
          by_cases hk : k = k'
          · subst hk
            simp [lookupKey, lookupKey_setKey_self]
          · have h1 : ¬ k' = k := fun he => hk he.symm
            simp [lookupKey, h1, lookupKey_setKey_ne _ _ _ _ hk]

theorem mem_zip_get (vl ml : List String) :
    ∀ (i : Nat) (h1 : i < vl.length) (h2 : i < ml.length),
    (vl.get ⟨i, h1⟩, ml.get ⟨i, h2⟩) ∈ vl.zip ml := by
  induction vl generalizing ml with
  | nil =>
      intro i h1
      simp at h1
  | cons a as ih =>
      intro i h1 h2
      cases ml with
      | nil => simp at h2
      | cons b bs =>
          cases i with
          | zero => simp [List.zip_cons_cons]
          | succ n =>
              simp only [List.zip_cons_cons, List.get_cons_succ]
              exact List.mem_cons_of_mem _ (ih bs n (by simpa using h1) (by simpa using h2))

theorem buildUserMap_lookup_pos (vl ml : List String) (hnd : vl.Nodup)
    (hlen : ml.length = vl.length) (i : Nat) (hi : i < vl.length) :
    lookupKey (buildUserMap vl ml) (vl.get ⟨i, hi⟩)
      = some (ml.get ⟨i, by rw [hlen]; exact hi⟩) := by
  unfold buildUserMap
  rw [foldl_setKey_lookup]
  have hmem : (vl.get ⟨i, hi⟩, ml.get ⟨i, by rw [hlen]; exact hi⟩) ∈ (vl.zip ml).reverse := by
    rw [List.mem_reverse]
    exact mem_zip_get vl ml i hi (by rw [hlen]; exact hi)
  have hkeys : (((vl.zip ml).reverse).map Prod.fst).Nodup := by
    rw [List.map_reverse, List.nodup_reverse, List.map_fst_zip vl ml (by rw [hlen])]
    exact hnd
  rw [lookupKey_of_mem_nodup hmem hkeys]

theorem matchStep_foldl_lookup (user : List (String × String)) (videos : List TikTokVideo) :
    ∀ (acc : List (String × String) × Nat) (k : String),
    lookupKey (videos.foldl (matchStep user) acc).1 k
      = if ((videos.any fun v => v.webVideoUrl == k) = true
            ∧ (lookupKey user k).isSome = true)
        then lookupKey user k
        else lookupKey acc.1 k := by
  induction videos with
  | nil =>
      intro acc k
      simp
  | cons v rest ih =>
      intro acc k
      simp only [List.foldl_cons, List.any_cons]
      by_cases hk : v.webVideoUrl = k
      · cases hu : lookupKey user v.webVideoUrl with
        | some m =>
            have hsome : lookupKey user k = some m := hk ▸ hu
            have hcond : ((v.webVideoUrl == k || rest.any fun v => v.webVideoUrl == k) = true
                ∧ (lookupKey user k).isSome = true) := by
              simp [hk, hsome]
            rw [if_pos hcond]
            simp only [matchStep, hu]
            rw [ih]
            by_cases hrest : ((rest.any fun v => v.webVideoUrl == k) = true
                ∧ (lookupKey user k).isSome = true)
            · rw [if_pos hrest]
            · rw [if_neg hrest]
              simp only [hk]
              rw [lookupKey_setKey_self]
              exact hsome.symm
        | none =>
            have hnone : lookupKey user k = none := hk ▸ hu
            have hcond : ¬ ((v.webVideoUrl == k || rest.any fun v => v.webVideoUrl == k) = true
                ∧ (lookupKey user k).isSome = true) := by
              simp [hnone]
            rw [if_neg hcond]
            simp only [matchStep, hu]
            rw [ih]
            rw [if_neg (by simp [hnone])]
      · have hbk : (v.webVideoUrl == k) = false := by simp [hk]
        cases hu : lookupKey user v.webVideoUrl with
        | some m =>
            simp only [matchStep, hu]
            rw [ih]
            have hq : k ≠ v.webVideoUrl := fun he => hk he.symm
            rw [lookupKey_setKey_ne _ _ _ _ hq]
            simp only [hbk, Bool.false_or]
        | none =>
            simp only [matchStep, hu]
            rw [ih]
            simp only [hbk, Bool.false_or]

theorem matchStep_foldl_count (user : List (String × String)) (videos : List TikTokVideo) :
    ∀ (acc : List (String × String) × Nat),
    (videos.foldl (matchStep user) acc).2
      = acc.2 + videos.countP (fun v => (lookupKey user v.webVideoUrl).isSome) := by
  induction videos with
  | nil =>
      intro acc
      simp
  | cons v rest ih =>
      intro acc
      simp only [List.foldl_cons, List.countP_cons]
      cases hu : lookupKey user v.webVideoUrl with
      | some m =>
          simp only [matchStep, hu]
          rw [ih]
          simp [hu]
          omega
      | none =>
          simp only [matchStep, hu]
          rw [ih]
          simp [hu]

theorem matchStep_foldl_length (user : List (String × String)) :
    ∀ (videos : List TikTokVideo) (acc : List (String × String) × Nat),
    ((videos.map fun v => v.webVideoUrl).Nodup) →
    (∀ v ∈ videos, v.webVideoUrl ∉ acc.1.map Prod.fst) →
    (videos.foldl (matchStep user) acc).1.length
      = acc.1.length + videos.countP (fun v => (lookupKey user v.webVideoUrl).isSome) := by
  intro videos
  induction videos with
  | nil =>
      intro acc _ _
      simp
  | cons v rest ih =>
      intro acc hnd hdisj
      simp only [List.map_cons, List.nodup_cons] at hnd
      simp only [List.foldl_cons, List.countP_cons]
      cases hu : lookupKey user v.webVideoUrl with
      | some m =>
          simp only [matchStep, hu]
          have hfresh : v.webVideoUrl ∉ acc.1.map Prod.fst :=
            hdisj v (List.mem_cons_self v rest)
          have hset : setKey acc.1 v.webVideoUrl m = acc.1 ++ [(v.webVideoUrl, m)] :=
            setKey_not_mem _ _ _ hfresh
          have hdisj' : ∀ w ∈ rest, w.webVideoUrl ∉
              (setKey acc.1 v.webVideoUrl m).map Prod.fst := by
            intro w hw
            rw [hset]
            simp only [List.map_append, List.mem_append, List.map_cons, List.map_nil,
              List.mem_singleton]
            rintro (hin | hin)
            · exact hdisj w (List.mem_cons_of_mem _ hw) hin
            · exact hnd.1 (List.mem_map.mpr ⟨w, hw, hin⟩)
          rw [ih (setKey acc.1 v.webVideoUrl m, acc.2 + 1) hnd.2 hdisj']
          rw [hset]
          simp [hu]
          omega
      | none =>
          simp only [matchStep, hu]
          have hdisj' : ∀ w ∈ rest, w.webVideoUrl ∉ acc.1.map Prod.fst :=
            fun w hw => hdisj w (List.mem_cons_of_mem _ hw)
          rw [ih acc hnd.2 hdisj']
          simp [hu]

theorem matchedOkMsg_head (c t : Nat) : (matchedOkMsg c t).data.head? = some 'Đ' := rfl

theorem matchedOkMsg_ne_errBoth (c t : Nat) : matchedOkMsg c t ≠ errBothMsg := by
  intro he
  have h1 : (matchedOkMsg c t).data.head? = some 'Đ' := matchedOkMsg_head c t
  rw [he] at h1
  exact absurd h1 (by decide)

theorem matchedOkMsg_ne_errCount (c t : Nat) : matchedOkMsg c t ≠ errCountMsg := by
  intro he
  have h1 : (matchedOkMsg c t).data.head? = some 'Đ' := matchedOkMsg_head c t
  rw [he] at h1
  exact absurd h1 (by decide)

/-- Claim C5: for equal-length, non-empty (after trimming blank lines)
audio-URL and video-URL lists — with the data model's uniqueness of video
URLs — matching succeeds and produces the positional video-URL→audio-URL
mapping restricted to the scanned set: the positional map sends the i-th
video URL to the i-th audio URL, the produced `mp3UrlMap` agrees with the
positional map exactly on scanned URLs, and the matched count (= the map's
size) is the number of scanned videos whose URL is in the positional map. -/
theorem handleMatch_spec (videos : List TikTokVideo) (mp3UrlsInput videoUrlsInput : String)
    (h1 : splitTrimFilter mp3UrlsInput ≠ [])
    (h2 : splitTrimFilter videoUrlsInput ≠ [])
    (h3 : (splitTrimFilter mp3UrlsInput).length = (splitTrimFilter videoUrlsInput).length)
    (h4 : (videos.map fun v => v.webVideoUrl).Nodup)
    (h5 : (splitTrimFilter videoUrlsInput).Nodup) :
    (∀ (i : Nat) (hi : i < (splitTrimFilter videoUrlsInput).length),
        lookupKey (buildUserMap (splitTrimFilter videoUrlsInput) (splitTrimFilter mp3UrlsInput))
            ((splitTrimFilter videoUrlsInput).get ⟨i, hi⟩)
          = some ((splitTrimFilter mp3UrlsInput).get ⟨i, by rw [h3]; exact hi⟩))
    ∧ (∀ k, lookupKey (handleMatch videos mp3UrlsInput videoUrlsInput).mp3UrlMap k
        = if ((videos.any fun v => v.webVideoUrl == k) = true
              ∧ (lookupKey (buildUserMap (splitTrimFilter videoUrlsInput)
                    (splitTrimFilter mp3UrlsInput)) k).isSome = true)
          then lookupKey (buildUserMap (splitTrimFilter videoUrlsInput)
                 (splitTrimFilter mp3UrlsInput)) k
          else none)
    ∧ (handleMatch videos mp3UrlsInput videoUrlsInput).matchedCount
        = videos.countP (fun v =>
            (lookupKey (buildUserMap (splitTrimFilter videoUrlsInput)
               (splitTrimFilter mp3UrlsInput)) v.webVideoUrl).isSome)
    ∧ (handleMatch videos mp3UrlsInput videoUrlsInput).mp3UrlMap.length
        = (handleMatch videos mp3UrlsInput videoUrlsInput).matchedCount
    ∧ (handleMatch videos mp3UrlsInput videoUrlsInput).matchStatus ≠ errBothMsg
    ∧ (handleMatch videos mp3UrlsInput videoUrlsInput).matchStatus ≠ errCountMsg := by
  have hma : handleMatch videos mp3UrlsInput videoUrlsInput
      = ⟨if (matchFold videos (buildUserMap (splitTrimFilter videoUrlsInput)
              (splitTrimFilter mp3UrlsInput))).2 > 0
         then matchedOkMsg (matchFold videos (buildUserMap (splitTrimFilter videoUrlsInput)
                (splitTrimFilter mp3UrlsInput))).2 videos.length
         else zeroMatchMsg,
         (matchFold videos (buildUserMap (splitTrimFilter videoUrlsInput)
            (splitTrimFilter mp3UrlsInput))).2,
         (matchFold videos (buildUserMap (splitTrimFilter videoUrlsInput)
            (splitTrimFilter mp3UrlsInput))).1⟩ := by
    unfold handleMatch
    rw [if_neg (by simp [List.length_eq_zero, h1, h2]), if_neg (by simp [h3])]
  refine ⟨?_, ?_, ?_, ?_, ?_, ?_⟩
  · intro i hi
    exact buildUserMap_lookup_pos _ _ h5 h3 i hi
  · intro k
    rw [hma]
    show lookupKey (matchFold videos _).1 k = _
    unfold matchFold
    rw [matchStep_foldl_lookup]
    by_cases hc : ((videos.any fun v => v.webVideoUrl == k) = true
        ∧ (lookupKey (buildUserMap (splitTrimFilter videoUrlsInput)
             (splitTrimFilter mp3UrlsInput)) k).isSome = true)
    · rw [if_pos hc, if_pos hc]
    · rw [if_neg hc, if_neg hc]
      rfl
  · rw [hma]
    show (matchFold videos _).2 = _
    unfold matchFold
    rw [matchStep_foldl_count]
    simp
  · rw [hma]
    show (matchFold videos _).1.length = (matchFold videos _).2
    unfold matchFold
    rw [matchStep_foldl_count, matchStep_foldl_length _ _ _ h4 (by simp)]
    simp
  · rw [hma]
    by_cases hp : (matchFold videos (buildUserMap (splitTrimFilter videoUrlsInput)
        (splitTrimFilter mp3UrlsInput))).2 > 0
    · simpa [hp] using matchedOkMsg_ne_errBoth _ videos.length
    · simp [hp, zeroMatchMsg, errBothMsg]
  · rw [hma]
    by_cases hp : (matchFold videos (buildUserMap (splitTrimFilter videoUrlsInput)
        (splitTrimFilter mp3UrlsInput))).2 > 0
    · simpa [hp] using matchedOkMsg_ne_errCount _ videos.length
    · simp [hp, zeroMatchMsg, errCountMsg]

theorem handleMatch_spec_witness :
    (splitTrimFilter "a.mp3\nb.mp3" ≠ []
      ∧ splitTrimFilter "v1\nv2" ≠ []
      ∧ (splitTrimFilter "a.mp3\nb.mp3").length = (splitTrimFilter "v1\nv2").length
      ∧ (([⟨"id1", "v1", "", 0, "", ⟨"a", "n", ""⟩, 0, 0, 0, 0, ⟨0, 0, 0⟩,
            ⟨"", "", false⟩⟩] : List TikTokVideo).map fun v => v.webVideoUrl).Nodup
      ∧ (splitTrimFilter "v1\nv2").Nodup)
    ∧ (handleMatch [⟨"id1", "v1", "", 0, "", ⟨"a", "n", ""⟩, 0, 0, 0, 0, ⟨0, 0, 0⟩,
          ⟨"", "", false⟩⟩] "a.mp3\nb.mp3" "v1\nv2").matchedCount
        = ([⟨"id1", "v1", "", 0, "", ⟨"a", "n", ""⟩, 0, 0, 0, 0, ⟨0, 0, 0⟩,
            ⟨"", "", false⟩⟩] : List TikTokVideo).countP (fun v =>
              (lookupKey (buildUserMap (splitTrimFilter "v1\nv2")
                 (splitTrimFilter "a.mp3\nb.mp3")) v.webVideoUrl).isSome)
    ∧ (handleMatch [⟨"id1", "v1", "", 0, "", ⟨"a", "n", ""⟩, 0, 0, 0, 0, ⟨0, 0, 0⟩,
          ⟨"", "", false⟩⟩] "a.mp3\nb.mp3" "v1\nv2").matchedCount = 1
    ∧ lookupKey (handleMatch [⟨"id1", "v1", "", 0, "", ⟨"a", "n", ""⟩, 0, 0, 0, 0,
          ⟨0, 0, 0⟩, ⟨"", "", false⟩⟩] "a.mp3\nb.mp3" "v1\nv2").mp3UrlMap "v1"
        = some "a.mp3"
    ∧ lookupKey (handleMatch [⟨"id1", "v1", "", 0, "", ⟨"a", "n", ""⟩, 0, 0, 0, 0,
          ⟨0, 0, 0⟩, ⟨"", "", false⟩⟩] "a.mp3\nb.mp3" "v1\nv2").mp3UrlMap "v2" = none :=
  ⟨⟨by decide, by decide, by decide, by decide, by decide⟩,
   (handleMatch_spec [⟨"id1", "v1", "", 0, "", ⟨"a", "n", ""⟩, 0, 0, 0, 0, ⟨0, 0, 0⟩,
      ⟨"", "", false⟩⟩] "a.mp3\nb.mp3" "v1\nv2" (by decide) (by decide) (by decide)
      (by decide) (by decide)).2.2.1,
   by decide, by decide, by decide⟩

/-- Claim C6: matching fails — with the status set to one of the two
validation error messages — exactly when, after trimming blank lines,
either input list is empty or the two lists differ in length, regardless
of content; on failure the mapping is cleared to empty and the matched
count is zero. -/
theorem handleMatch_failure_iff (videos : List TikTokVideo) (a b : String) :
    ((splitTrimFilter a = [] ∨ splitTrimFilter b = []
        ∨ (splitTrimFilter a).length ≠ (splitTrimFilter b).length)
      ↔ ((handleMatch videos a b).matchStatus = errBothMsg
          ∨ (handleMatch videos a b).matchStatus = errCountMsg))
    ∧ ((splitTrimFilter a = [] ∨ splitTrimFilter b = []
        ∨ (splitTrimFilter a).length ≠ (splitTrimFilter b).length) →
        (handleMatch videos a b).mp3UrlMap = []
          ∧ (handleMatch videos a b).matchedCount = 0) := by
  by_cases he : splitTrimFilter a = [] ∨ splitTrimFilter b = []
  · have hm : handleMatch videos a b = ⟨errBothMsg, 0, []⟩ := by
      unfold handleMatch
      rw [if_pos (by rcases he with he | he <;> simp [he])]
    rw [hm]
    exact ⟨⟨fun _ => Or.inl rfl, fun _ => by tauto⟩, fun _ => ⟨rfl, rfl⟩⟩
  · push_neg at he
    by_cases hl : (splitTrimFilter a).length = (splitTrimFilter b).length
    · have hm : handleMatch videos a b
          = ⟨if (matchFold videos (buildUserMap (splitTrimFilter b) (splitTrimFilter a))).2 > 0
             then matchedOkMsg (matchFold videos (buildUserMap (splitTrimFilter b)
                    (splitTrimFilter a))).2 videos.length
             else zeroMatchMsg,
             (matchFold videos (buildUserMap (splitTrimFilter b) (splitTrimFilter a))).2,
             (matchFold videos (buildUserMap (splitTrimFilter b) (splitTrimFilter a))).1⟩ := by
        unfold handleMatch
        rw [if_neg (by simp [List.length_eq_zero, he.1, he.2]), if_neg (by simp [hl])]
      have hne1 : (handleMatch videos a b).matchStatus ≠ errBothMsg := by
        rw [hm]
        by_cases hp : (matchFold videos (buildUserMap (splitTrimFilter b)
            (splitTrimFilter a))).2 > 0
        · simpa [hp] using matchedOkMsg_ne_errBoth _ videos.length
        · simp [hp, zeroMatchMsg, errBothMsg]
      have hne2 : (handleMatch videos a b).matchStatus ≠ errCountMsg := by
        rw [hm]
        by_cases hp : (matchFold videos (buildUserMap (splitTrimFilter b)
            (splitTrimFilter a))).2 > 0
        · simpa [hp] using matchedOkMsg_ne_errCount _ videos.length
        · simp [hp, zeroMatchMsg, errCountMsg]
      constructor
      · constructor
        · intro hc
          rcases hc with hc | hc | hc
          · exact absurd hc he.1
          · exact absurd hc he.2
          · exact absurd hl hc
        · intro hc
          rcases hc with hc | hc
          · exact absurd hc hne1
          · exact absurd hc hne2
      · intro hc
        rcases hc with hc | hc | hc
        · exact absurd hc he.1
        · exact absurd hc he.2
        · exact absurd hl hc
    · have hm : handleMatch videos a b = ⟨errCountMsg, 0, []⟩ := by
        unfold handleMatch
        rw [if_neg (by simp [List.length_eq_zero, he.1, he.2]), if_pos (by simp [hl])]
      rw [hm]
      exact ⟨⟨fun _ => Or.inr rfl, fun _ => by tauto⟩, fun _ => ⟨rfl, rfl⟩⟩

theorem sanitizeCsvField_roundtrip_witness :
    csvDecodeField (sanitizeCsvField "a,\"b\"") = some "a,\"b\""
    ∧ ("ab".data.any csvSpecial = false ∧ sanitizeCsvField "ab" = "ab") :=
  ⟨(sanitizeCsvField_roundtrip "a,\"b\"").1,
   by decide, (sanitizeCsvField_roundtrip "ab").2.1 (by decide)⟩

theorem handleMatch_failure_iff_witness :
    splitTrimFilter "" = []
    ∧ ((handleMatch [] "" "v1").mp3UrlMap = []
        ∧ (handleMatch [] "" "v1").matchedCount = 0) :=
  ⟨by decide, (handleMatch_failure_iff [] "" "v1").2 (Or.inl (by decide))⟩

/-! ## Pipeline controller lemmas (C1-C4) -/

/-- The URL of a fetch-attempt event. -/
def attemptUrl : Ev → Option String
  | .attempt u => some u
  | _ => none

/-- The duration of a delay event. -/
def delayOf : Ev → Option Nat
  | .delay n => some n
  | _ => none

/-- Is this event a live-status update to the `success` state? -/
def isSuccessUpd : Ev → Bool
  | .stateUpd _ st => st.status == TStatus.success
  | _ => false

/-- The live-status updates an event applies to the given identity. -/
def stateUpdFor (url : String) : Ev → Option TranscriptEntry
  | .stateUpd u st => if u = url then some st else none
  | _ => none

/-- The cache writes an event applies to the given identity. -/
def cacheUpdFor (url : String) : Ev → Option String
  | .cacheUpd u t => if u = url then some t else none
  | _ => none

/-- Did the item's fetch-then-transcribe attempt produce a transcript? -/
def isOk : ItemOutcome → Bool
  | .ok _ => true
  | _ => false

/-- Number of `ok` outcomes among items `i, i+1, ..., i+n-1`. -/
def countOk (outcome : Nat → ItemOutcome) : Nat → Nat → Nat
  | _, 0 => 0
  | i, n + 1 => (if isOk (outcome i) then 1 else 0) + countOk outcome (i + 1) n

theorem processItem_attempts (v : TikTokVideo) (i total : Nat) (out : ItemOutcome)
    (st : TranscriptState) (cache : TranscriptCache) (succ : Nat) :
    (processItem v i total out st cache succ).1.filterMap attemptUrl = [v.webVideoUrl] := by
  cases out <;> simp [processItem, attemptUrl]

theorem processItem_delays (v : TikTokVideo) (i total : Nat) (out : ItemOutcome)
    (st : TranscriptState) (cache : TranscriptCache) (succ : Nat) :
    (processItem v i total out st cache succ).1.filterMap delayOf = [] := by
  cases out <;> simp [processItem, delayOf]

theorem processItem_successUpds (v : TikTokVideo) (i total : Nat) (out : ItemOutcome)
    (st : TranscriptState) (cache : TranscriptCache) (succ : Nat) :
    (processItem v i total out st cache succ).1.countP isSuccessUpd
      = if isOk out then 1 else 0 := by
  cases out <;>
    simp [processItem, isSuccessUpd, isOk, loadingFetchEntry, loadingAIEntry, List.countP_cons]

theorem processItem_succ (v : TikTokVideo) (i total : Nat) (out : ItemOutcome)
    (st : TranscriptState) (cache : TranscriptCache) (succ : Nat) :
    (processItem v i total out st cache succ).2.2.2 = succ + (if isOk out then 1 else 0) := by
  cases out <;> simp [processItem, isOk]

theorem processItem_events_ne (v : TikTokVideo) (i total : Nat) (out : ItemOutcome)
    (st : TranscriptState) (cache : TranscriptCache) (succ : Nat) :
    (processItem v i total out st cache succ).1 ≠ [] := by
  cases out <;> simp [processItem]

theorem runLoop_clean (envSet : Nat → Bool) (outcome : Nat → ItemOutcome)
    (hE : ∀ q, envSet q = false) :
    ∀ (rest : List TikTokVideo) (total i p : Nat) (st : TranscriptState)
      (cache : TranscriptCache) (succ : Nat) (cur : String),
    total = i + rest.length →
    (runLoop envSet outcome rest total i p false st cache succ cur).events.filterMap attemptUrl
        = rest.map (fun v => v.webVideoUrl)
    ∧ (runLoop envSet outcome rest total i p false st cache succ cur).events.filterMap delayOf
        = List.replicate (rest.length - 1) 4000
    ∧ (runLoop envSet outcome rest total i p false st cache succ cur).successCount
        = succ + countOk outcome i rest.length
    ∧ (runLoop envSet outcome rest total i p false st cache succ cur).events.countP isSuccessUpd
        = countOk outcome i rest.length
    ∧ (runLoop envSet outcome rest total i p false st cache succ cur).finalStatus
        = completedMsg (succ + countOk outcome i rest.length)
    ∧ (runLoop envSet outcome rest total i p false st cache succ cur).events.getLast?
        = some (Ev.statusMsg (completedMsg (succ + countOk outcome i rest.length))) := by
  intro rest
  induction rest with
  | nil =>
      intro total i p st cache succ cur htot
      simp [runLoop, hE p, attemptUrl, delayOf, isSuccessUpd, countOk]
  | cons v vs ih =>
      intro total i p st cache succ cur htot
      simp only [List.length_cons] at htot
      cases vs with
      | nil =>
          simp only [List.length_nil] at htot
          have hnt : ¬ i < total - 1 := by omega
          have harith : (processItem v i total (outcome i) st cache succ).2.2.2
              = succ + countOk outcome i 1 := by
            rw [processItem_succ]
            simp [countOk]
          rw [runLoop]
          simp only [hE p, Bool.false_or, Bool.false_eq_true, if_false, if_neg hnt]
          rw [runLoop]
          simp only [hE (p + 1), Bool.false_or, Bool.false_eq_true, if_false]
          refine ⟨?_, ?_, ?_, ?_, ?_, ?_⟩
          · simp [List.filterMap_append, processItem_attempts, attemptUrl]
          · simp [List.filterMap_append, processItem_delays, delayOf]
          · simpa using harith
          · simp only [List.countP_append, processItem_successUpds]
            simp [isSuccessUpd, countOk]
          · rw [harith]
            simp
          · rw [List.getLast?_append_of_ne_nil _ (by simp), harith]
            simp
      | cons w ws =>
          simp only [List.length_cons] at htot
          have hlt : i < total - 1 := by omega
          have htot' : total = (i + 1) + (w :: ws).length := by
            simp only [List.length_cons]
            omega
          obtain ⟨ih1, ih2, ih3, ih4, ih5, ih6⟩ :=
            ih total (i + 1) (p + 2)
              (processItem v i total (outcome i) st cache succ).2.1
              (processItem v i total (outcome i) st cache succ).2.2.1
              (processItem v i total (outcome i) st cache succ).2.2.2
              (processingMsg (i + 1) total v.authorMeta.nickName) htot'
          have harith : (processItem v i total (outcome i) st cache succ).2.2.2
              + countOk outcome (i + 1) (w :: ws).length
              = succ + countOk outcome i ((w :: ws).length + 1) := by
            rw [processItem_succ]
            simp only [countOk]
            omega
          have hne : (runLoop envSet outcome (w :: ws) total (i + 1) (p + 2) false
              (processItem v i total (outcome i) st cache succ).2.1
              (processItem v i total (outcome i) st cache succ).2.2.1
              (processItem v i total (outcome i) st cache succ).2.2.2
              (processingMsg (i + 1) total v.authorMeta.nickName)).events ≠ [] := by
            intro hx
            rw [hx] at ih6
            simp at ih6
          rw [runLoop]
          simp only [hE p, hE (p + 1), Bool.false_or, Bool.false_eq_true, if_false,
            if_pos hlt]
          refine ⟨?_, ?_, ?_, ?_, ?_, ?_⟩
          · simp [List.filterMap_append, processItem_attempts, attemptUrl, ih1]
          · simp only [List.filterMap_append, processItem_delays, ih2, List.length_cons]
            simp [delayOf, List.replicate_succ]
          · rw [ih3]
            simpa using harith
          · simp only [List.countP_append, processItem_successUpds, ih4, List.length_cons]
            simp [isSuccessUpd, countOk]
          · rw [ih5]
            simp only [List.length_cons] at harith ⊢
            rw [harith]
          · rw [List.append_assoc, List.getLast?_append_of_ne_nil _ (by simp [hne]),
              List.getLast?_append_of_ne_nil _ hne, ih6]
            simp only [List.length_cons] at harith ⊢
            rw [harith]

/-- Claim C1: for a work-set of N items and no stop request during the run,
the controller performs exactly N fetch-then-transcribe attempts in
VideoRecord list order, awaits exactly N−1 inter-call delays of 4000ms
(none after the last item — the trace ends with the terminal summary), and
publishes a terminal summary whose success count equals the number of items
that reached the `success` state. -/
theorem runTranscription_no_stop (prevStop : Bool) (videos : List TikTokVideo)
    (mp3UrlMap : List (String × String)) (cache0 : TranscriptCache)
    (st0 : TranscriptState) (status0 : String)
    (outcome : Nat → ItemOutcome) (envSet : Nat → Bool)
    (hE : ∀ q, envSet q = false) :
    (runTranscription prevStop videos mp3UrlMap cache0 st0 status0 outcome
        envSet).events.filterMap attemptUrl
      = (videosToTranscribe videos mp3UrlMap cache0).map (fun v => v.webVideoUrl)
    ∧ (runTranscription prevStop videos mp3UrlMap cache0 st0 status0 outcome
        envSet).events.filterMap delayOf
      = List.replicate ((videosToTranscribe videos mp3UrlMap cache0).length - 1) 4000
    ∧ (runTranscription prevStop videos mp3UrlMap cache0 st0 status0 outcome
        envSet).successCount
      = (runTranscription prevStop videos mp3UrlMap cache0 st0 status0 outcome
          envSet).events.countP isSuccessUpd
    ∧ (runTranscription prevStop videos mp3UrlMap cache0 st0 status0 outcome
        envSet).finalStatus
      = completedMsg ((runTranscription prevStop videos mp3UrlMap cache0 st0 status0
          outcome envSet).events.countP isSuccessUpd)
    ∧ (runTranscription prevStop videos mp3UrlMap cache0 st0 status0 outcome
        envSet).events.getLast?
      = some (Ev.statusMsg (completedMsg ((runTranscription prevStop videos mp3UrlMap
          cache0 st0 status0 outcome envSet).successCount))) := by
  have hru : runTranscription prevStop videos mp3UrlMap cache0 st0 status0 outcome envSet
      = runLoop envSet outcome (videosToTranscribe videos mp3UrlMap cache0)
          (videosToTranscribe videos mp3UrlMap cache0).length 0 0 false st0 cache0
          0 status0 := rfl
  obtain ⟨h1, h2, h3, h4, h5, h6⟩ :=
    runLoop_clean envSet outcome hE (videosToTranscribe videos mp3UrlMap cache0)
      (videosToTranscribe videos mp3UrlMap cache0).length 0 0 st0 cache0 0 status0
      (by simp)
  refine ⟨?_, ?_, ?_, ?_, ?_⟩
  · rw [hru]
    exact h1
  · rw [hru]
    exact h2
  · rw [hru, h3, h4]
    simp
  · rw [hru, h5, h4]
    simp
  · rw [hru, h6, h3]

theorem runTranscription_no_stop_witness :
    (∀ q : Nat, (fun _ : Nat => false) q = false)
    ∧ (runTranscription false
        [⟨"i1", "v1", "", 0, "", ⟨"a", "n", ""⟩, 0, 0, 0, 0, ⟨0, 0, 0⟩, ⟨"", "", false⟩⟩,
         ⟨"i2", "v2", "", 0, "", ⟨"a", "n", ""⟩, 0, 0, 0, 0, ⟨0, 0, 0⟩, ⟨"", "", false⟩⟩]
        [("v1", "a.mp3"), ("v2", "b.mp3")] [] [] "init"
        (fun _ => ItemOutcome.ok "t") (fun _ => false)).events.filterMap attemptUrl
      = (videosToTranscribe
          [⟨"i1", "v1", "", 0, "", ⟨"a", "n", ""⟩, 0, 0, 0, 0, ⟨0, 0, 0⟩, ⟨"", "", false⟩⟩,
           ⟨"i2", "v2", "", 0, "", ⟨"a", "n", ""⟩, 0, 0, 0, 0, ⟨0, 0, 0⟩, ⟨"", "", false⟩⟩]
          [("v1", "a.mp3"), ("v2", "b.mp3")] []).map (fun v => v.webVideoUrl)
    ∧ (runTranscription false
        [⟨"i1", "v1", "", 0, "", ⟨"a", "n", ""⟩, 0, 0, 0, 0, ⟨0, 0, 0⟩, ⟨"", "", false⟩⟩,
         ⟨"i2", "v2", "", 0, "", ⟨"a", "n", ""⟩, 0, 0, 0, 0, ⟨0, 0, 0⟩, ⟨"", "", false⟩⟩]
        [("v1", "a.mp3"), ("v2", "b.mp3")] [] [] "init"
        (fun _ => ItemOutcome.ok "t") (fun _ => false)).events.filterMap delayOf
      = List.replicate 1 4000 :=
  ⟨fun _ => rfl,
   (runTranscription_no_stop false
      [⟨"i1", "v1", "", 0, "", ⟨"a", "n", ""⟩, 0, 0, 0, 0, ⟨0, 0, 0⟩, ⟨"", "", false⟩⟩,
       ⟨"i2", "v2", "", 0, "", ⟨"a", "n", ""⟩, 0, 0, 0, 0, ⟨0, 0, 0⟩, ⟨"", "", false⟩⟩]
      [("v1", "a.mp3"), ("v2", "b.mp3")] [] [] "init"
      (fun _ => ItemOutcome.ok "t") (fun _ => false) (fun _ => rfl)).1,
   by decide⟩

theorem runLoop_stop (envSet : Nat → Bool) (outcome : Nat → ItemOutcome) :
    ∀ (k : Nat) (rest : List TikTokVideo) (total i p : Nat) (st : TranscriptState)
      (cache : TranscriptCache) (succ : Nat) (cur : String),
    total = i + rest.length →
    k < rest.length →
    (∀ j, j < 2 * k → envSet (p + j) = false) →
    envSet (p + 2 * k) = true →
    (runLoop envSet outcome rest total i p false st cache succ cur).events.filterMap attemptUrl
        = (rest.take k).map (fun v => v.webVideoUrl)
    ∧ (runLoop envSet outcome rest total i p false st cache succ cur).events.filterMap delayOf
        = List.replicate k 4000
    ∧ (runLoop envSet outcome rest total i p false st cache succ cur).successCount
        = succ + countOk outcome i k
    ∧ (runLoop envSet outcome rest total i p false st cache succ cur).events.countP isSuccessUpd
        = countOk outcome i k
    ∧ (runLoop envSet outcome rest total i p false st cache succ cur).finalStatus
        = stopMsg (succ + countOk outcome i k)
    ∧ (runLoop envSet outcome rest total i p false st cache succ cur).events.getLast?
        = some (Ev.statusMsg (stopMsg (succ + countOk outcome i k))) := by
  intro k
  induction k with
  | zero =>
      intro rest total i p st cache succ cur htot hk hfalse htrue
      cases rest with
      | nil => simp at hk
      | cons v vs =>
          rw [runLoop]
          have hp : envSet p = true := by simpa using htrue
          simp [hp, attemptUrl, delayOf, isSuccessUpd, countOk]
  | succ k ihk =>
      intro rest total i p st cache succ cur htot hk hfalse htrue
      cases rest with
      | nil => simp at hk
      | cons v vs =>
          simp only [List.length_cons] at htot hk
          have hvs : k < vs.length := by omega
          have hlt : i < total - 1 := by omega
          have harith : (processItem v i total (outcome i) st cache succ).2.2.2
              + countOk outcome (i + 1) k
              = succ + countOk outcome i (k + 1) := by
            rw [processItem_succ]
            simp only [countOk]
            omega
          have hfalse' : ∀ j, j < 2 * k → envSet (p + 2 + j) = false := by
            intro j hj
            have : p + 2 + j = p + (j + 2) := by omega
            rw [this]
            exact hfalse (j + 2) (by omega)
          have htrue' : envSet (p + 2 + 2 * k) = true := by
            have : p + 2 + 2 * k = p + 2 * (k + 1) := by omega
            rw [this]
            exact htrue
          obtain ⟨ih1, ih2, ih3, ih4, ih5, ih6⟩ :=
            ihk vs total (i + 1) (p + 2)
              (processItem v i total (outcome i) st cache succ).2.1
              (processItem v i total (outcome i) st cache succ).2.2.1
              (processItem v i total (outcome i) st cache succ).2.2.2
              (processingMsg (i + 1) total v.authorMeta.nickName)
              (by omega) hvs hfalse' htrue'
          have hne : (runLoop envSet outcome vs total (i + 1) (p + 2) false
              (processItem v i total (outcome i) st cache succ).2.1
              (processItem v i total (outcome i) st cache succ).2.2.1
              (processItem v i total (outcome i) st cache succ).2.2.2
              (processingMsg (i + 1) total v.authorMeta.nickName)).events ≠ [] := by
            intro hx
            rw [hx] at ih6
            simp at ih6
          have hp0 : envSet p = false := by
            have : p = p + 0 := by omega
            rw [this]
            exact hfalse 0 (by omega)
          have hp1 : envSet (p + 1) = false := hfalse 1 (by omega)
          rw [runLoop]
          simp only [hp0, hp1, Bool.false_or, Bool.false_eq_true, if_false, if_pos hlt]
          refine ⟨?_, ?_, ?_, ?_, ?_, ?_⟩
          · simp [List.filterMap_append, processItem_attempts, attemptUrl, ih1,
              List.take_succ_cons]
          · simp only [List.filterMap_append, processItem_delays, ih2]
            simp [delayOf, List.replicate_succ]
          · rw [ih3]
            simpa using harith
          · simp only [List.countP_append, processItem_successUpds, ih4]
            simp [isSuccessUpd, countOk]
          · rw [ih5, harith]
          · rw [List.append_assoc, List.getLast?_append_of_ne_nil _ (by simp [hne]),
              List.getLast?_append_of_ne_nil _ hne, ih6, harith]

/-- Claim C2: if the cooperative stop signal is first observed at the top of
the iteration for item k (0-indexed, before its fetch begins), then items
k..N are never attempted, no inter-call delay is awaited after the stop
(the trace ends with the stopped summary and holds exactly the k delays
already awaited between the first k items), the summary reports the success
count among the first k items, and the stop signal is reset to
not-requested at the start of each run (the flag value left by a previous
run has no effect). -/
theorem runTranscription_stop (prevStop : Bool) (videos : List TikTokVideo)
    (mp3UrlMap : List (String × String)) (cache0 : TranscriptCache)
    (st0 : TranscriptState) (status0 : String)
    (outcome : Nat → ItemOutcome) (envSet : Nat → Bool) (k : Nat)
    (hk : k < (videosToTranscribe videos mp3UrlMap cache0).length)
    (hfalse : ∀ j, j < 2 * k → envSet j = false)
    (htrue : envSet (2 * k) = true) :
    (runTranscription prevStop videos mp3UrlMap cache0 st0 status0 outcome
        envSet).events.filterMap attemptUrl
      = ((videosToTranscribe videos mp3UrlMap cache0).take k).map (fun v => v.webVideoUrl)
    ∧ (runTranscription prevStop videos mp3UrlMap cache0 st0 status0 outcome
        envSet).events.filterMap delayOf = List.replicate k 4000
    ∧ (runTranscription prevStop videos mp3UrlMap cache0 st0 status0 outcome
        envSet).successCount = countOk outcome 0 k
    ∧ (runTranscription prevStop videos mp3UrlMap cache0 st0 status0 outcome
        envSet).finalStatus = stopMsg (countOk outcome 0 k)
    ∧ (runTranscription prevStop videos mp3UrlMap cache0 st0 status0 outcome
        envSet).events.getLast?
      = some (Ev.statusMsg (stopMsg (countOk outcome 0 k)))
    ∧ (∀ b₁ b₂ : Bool,
        runTranscription b₁ videos mp3UrlMap cache0 st0 status0 outcome envSet
          = runTranscription b₂ videos mp3UrlMap cache0 st0 status0 outcome envSet) := by
  have hru : runTranscription prevStop videos mp3UrlMap cache0 st0 status0 outcome envSet
      = runLoop envSet outcome (videosToTranscribe videos mp3UrlMap cache0)
          (videosToTranscribe videos mp3UrlMap cache0).length 0 0 false st0 cache0
          0 status0 := rfl
  obtain ⟨h1, h2, h3, h4, h5, h6⟩ :=
    runLoop_stop envSet outcome k (videosToTranscribe videos mp3UrlMap cache0)
      (videosToTranscribe videos mp3UrlMap cache0).length 0 0 st0 cache0 0 status0
      (by simp) hk (by simpa using hfalse) (by simpa using htrue)
  refine ⟨?_, ?_, ?_, ?_, ?_, fun b₁ b₂ => rfl⟩
  · rw [hru]
    exact h1
  · rw [hru]
    exact h2
  · rw [hru, h3]
    simp
  · rw [hru, h5]
    simp
  · rw [hru, h6]
    simp

theorem runTranscription_stop_witness :
    (1 < (videosToTranscribe
        [⟨"i1", "v1", "", 0, "", ⟨"a", "n", ""⟩, 0, 0, 0, 0, ⟨0, 0, 0⟩, ⟨"", "", false⟩⟩,
         ⟨"i2", "v2", "", 0, "", ⟨"a", "n", ""⟩, 0, 0, 0, 0, ⟨0, 0, 0⟩, ⟨"", "", false⟩⟩]
        [("v1", "a.mp3"), ("v2", "b.mp3")] []).length
      ∧ (∀ j, j < 2 * 1 → (fun p => decide (2 ≤ p)) j = false)
      ∧ (fun p => decide (2 ≤ p)) (2 * 1) = true)
    ∧ (runTranscription false
        [⟨"i1", "v1", "", 0, "", ⟨"a", "n", ""⟩, 0, 0, 0, 0, ⟨0, 0, 0⟩, ⟨"", "", false⟩⟩,
         ⟨"i2", "v2", "", 0, "", ⟨"a", "n", ""⟩, 0, 0, 0, 0, ⟨0, 0, 0⟩, ⟨"", "", false⟩⟩]
        [("v1", "a.mp3"), ("v2", "b.mp3")] [] [] "init"
        (fun _ => ItemOutcome.ok "t") (fun p => decide (2 ≤ p))).finalStatus
      = stopMsg (countOk (fun _ => ItemOutcome.ok "t") 0 1)
    ∧ stopMsg (countOk (fun _ => ItemOutcome.ok "t") 0 1)
      = "Quá trình đã được người dùng dừng lại. 1 bản ghi đã được tạo." :=
  ⟨⟨by decide, by decide, by decide⟩,
   (runTranscription_stop false
      [⟨"i1", "v1", "", 0, "", ⟨"a", "n", ""⟩, 0, 0, 0, 0, ⟨0, 0, 0⟩, ⟨"", "", false⟩⟩,
       ⟨"i2", "v2", "", 0, "", ⟨"a", "n", ""⟩, 0, 0, 0, 0, ⟨0, 0, 0⟩, ⟨"", "", false⟩⟩]
      [("v1", "a.mp3"), ("v2", "b.mp3")] [] [] "init"
      (fun _ => ItemOutcome.ok "t") (fun p => decide (2 ≤ p)) 1
      (by decide) (by decide) (by decide)).2.2.2.1,
   by decide⟩

theorem processItem_untouched (v : TikTokVideo) (i total : Nat) (out : ItemOutcome)
    (st : TranscriptState) (cache : TranscriptCache) (succ : Nat) (u : String)
    (h : v.webVideoUrl ≠ u) :
    lookupKey (processItem v i total out st cache succ).2.1 u = lookupKey st u
    ∧ lookupKey (processItem v i total out st cache succ).2.2.1 u = lookupKey cache u
    ∧ (processItem v i total out st cache succ).1.filterMap (stateUpdFor u) = []
    ∧ (processItem v i total out st cache succ).1.filterMap (cacheUpdFor u) = [] := by
  have hne : u ≠ v.webVideoUrl := fun he => h he.symm
  cases out <;>
    simp [processItem, lookupKey_setKey_ne _ _ _ _ hne, stateUpdFor, cacheUpdFor, h]

theorem stateUpdFor_delay (u : String) (n : Nat) : stateUpdFor u (Ev.delay n) = none := rfl

theorem cacheUpdFor_delay (u : String) (n : Nat) : cacheUpdFor u (Ev.delay n) = none := rfl

theorem runLoop_untouched (envSet : Nat → Bool) (outcome : Nat → ItemOutcome) :
    ∀ (rest : List TikTokVideo) (total i p : Nat) (flag : Bool) (st : TranscriptState)
      (cache : TranscriptCache) (succ : Nat) (cur : String) (u : String),
    (∀ v ∈ rest, v.webVideoUrl ≠ u) →
    lookupKey (runLoop envSet outcome rest total i p flag st cache succ
        cur).transcriptStates u = lookupKey st u
    ∧ lookupKey (runLoop envSet outcome rest total i p flag st cache succ
        cur).transcriptCache u = lookupKey cache u
    ∧ (runLoop envSet outcome rest total i p flag st cache succ
        cur).events.filterMap (stateUpdFor u) = []
    ∧ (runLoop envSet outcome rest total i p flag st cache succ
        cur).events.filterMap (cacheUpdFor u) = [] := by
  intro rest
  induction rest with
  | nil =>
      intro total i p flag st cache succ cur u _
      by_cases hc : (flag || envSet p) = true <;>
        simp [runLoop, hc, stateUpdFor, cacheUpdFor]
  | cons v vs ih =>
      intro total i p flag st cache succ cur u hu
      have hv : v.webVideoUrl ≠ u := hu v (List.mem_cons_self v vs)
      have hvs : ∀ w ∈ vs, w.webVideoUrl ≠ u :=
        fun w hw => hu w (List.mem_cons_of_mem _ hw)
      obtain ⟨hp1, hp2, hp3, hp4⟩ :=
        processItem_untouched v i total (outcome i) st cache succ u hv
      by_cases hc : (flag || envSet p) = true
      · rw [runLoop]
        simp [hc, stateUpdFor, cacheUpdFor]
      · have hc' : (flag || envSet p) = false := Bool.eq_false_iff.mpr hc
        rw [runLoop]
        simp only [hc', Bool.false_eq_true, if_false]
        by_cases hlt : i < total - 1
        · simp only [if_pos hlt]
          cases hf : envSet (p + 1) with
          | true =>
              obtain ⟨ih1, ih2, ih3, ih4⟩ :=
                ih total (i + 1) (p + 2) true
                  (processItem v i total (outcome i) st cache succ).2.1
                  (processItem v i total (outcome i) st cache succ).2.2.1
                  (processItem v i total (outcome i) st cache succ).2.2.2
                  (processingMsg (i + 1) total v.authorMeta.nickName) u hvs
              refine ⟨ih1.trans hp1, ih2.trans hp2, ?_, ?_⟩
              · simp [List.filterMap_append, hp3, ih3]
              · simp [List.filterMap_append, hp4, ih4]
          | false =>
              obtain ⟨ih1, ih2, ih3, ih4⟩ :=
                ih total (i + 1) (p + 2) false
                  (processItem v i total (outcome i) st cache succ).2.1
                  (processItem v i total (outcome i) st cache succ).2.2.1
                  (processItem v i total (outcome i) st cache succ).2.2.2
                  (processingMsg (i + 1) total v.authorMeta.nickName) u hvs
              refine ⟨ih1.trans hp1, ih2.trans hp2, ?_, ?_⟩
              · simp [List.filterMap_append, hp3, ih3, stateUpdFor]
              · simp [List.filterMap_append, hp4, ih4, cacheUpdFor]
        · simp only [if_neg hlt]
          obtain ⟨ih1, ih2, ih3, ih4⟩ :=
            ih total (i + 1) (p + 1) false
              (processItem v i total (outcome i) st cache succ).2.1
              (processItem v i total (outcome i) st cache succ).2.2.1
              (processItem v i total (outcome i) st cache succ).2.2.2
              (processingMsg (i + 1) total v.authorMeta.nickName) u hvs
          refine ⟨?_, ?_, ?_, ?_⟩
          · rw [ih1, hp1]
          · rw [ih2, hp2]
          · simp [List.filterMap_append, hp3, ih3]
          · simp [List.filterMap_append, hp4, ih4]

theorem runLoop_reach (envSet : Nat → Bool) (outcome : Nat → ItemOutcome) :
    ∀ (idx : Nat) (rest : List TikTokVideo) (total i p : Nat) (st : TranscriptState)
      (cache : TranscriptCache) (succ : Nat) (cur : String) (t : String)
      (hidx : idx < rest.length),
    total = i + rest.length →
    ((rest.map fun v => v.webVideoUrl).Nodup) →
    outcome (i + idx) = ItemOutcome.ok t →
    (∀ j, j ≤ 2 * idx → envSet (p + j) = false) →
    lookupKey (runLoop envSet outcome rest total i p false st cache succ
        cur).transcriptStates (rest.get ⟨idx, hidx⟩).webVideoUrl
      = some ⟨TStatus.success, t⟩
    ∧ lookupKey (runLoop envSet outcome rest total i p false st cache succ
        cur).transcriptCache (rest.get ⟨idx, hidx⟩).webVideoUrl = some t
    ∧ (runLoop envSet outcome rest total i p false st cache succ
        cur).events.filterMap (stateUpdFor (rest.get ⟨idx, hidx⟩).webVideoUrl)
      = [loadingFetchEntry, loadingAIEntry, ⟨TStatus.success, t⟩]
    ∧ (runLoop envSet outcome rest total i p false st cache succ
        cur).events.filterMap (cacheUpdFor (rest.get ⟨idx, hidx⟩).webVideoUrl) = [t] := by
  intro idx
  induction idx with
  | zero =>
      intro rest total i p st cache succ cur t hidx htot hnd hok hfalse
      cases rest with
      | nil => simp at hidx
      | cons v vs =>
          simp only [List.length_cons] at htot
          have hget : (v :: vs).get ⟨0, hidx⟩ = v := rfl
          rw [hget]
          simp only [Nat.add_zero] at hok
          have hp0 : envSet p = false := by
            have : p = p + 0 := by omega
            rw [this]
            exact hfalse 0 (by omega)
          simp only [List.map_cons, List.nodup_cons] at hnd
          have hvno : ∀ w ∈ vs, w.webVideoUrl ≠ v.webVideoUrl := by
            intro w hw he
            exact hnd.1 (List.mem_map.mpr ⟨w, hw, he⟩)
          have hblk1 : lookupKey (processItem v i total (outcome i) st cache
              succ).2.1 v.webVideoUrl = some ⟨TStatus.success, t⟩ := by
            simp [processItem, hok, lookupKey_setKey_self]
          have hblk2 : lookupKey (processItem v i total (outcome i) st cache
              succ).2.2.1 v.webVideoUrl = some t := by
            simp [processItem, hok, lookupKey_setKey_self]
          have hblk3 : (processItem v i total (outcome i) st cache
              succ).1.filterMap (stateUpdFor v.webVideoUrl)
              = [loadingFetchEntry, loadingAIEntry, ⟨TStatus.success, t⟩] := by
            simp [processItem, hok, stateUpdFor]
          have hblk4 : (processItem v i total (outcome i) st cache
              succ).1.filterMap (cacheUpdFor v.webVideoUrl) = [t] := by
            simp [processItem, hok, cacheUpdFor]
          rw [runLoop]
          simp only [hp0, Bool.false_or, Bool.false_eq_true, if_false]
          by_cases hlt : i < total - 1
          · simp only [if_pos hlt]
            cases hf : envSet (p + 1) with
            | true =>
                obtain ⟨u1, u2, u3, u4⟩ :=
                  runLoop_untouched envSet outcome vs total (i + 1) (p + 2) true
                    (processItem v i total (outcome i) st cache succ).2.1
                    (processItem v i total (outcome i) st cache succ).2.2.1
                    (processItem v i total (outcome i) st cache succ).2.2.2
                    (processingMsg (i + 1) total v.authorMeta.nickName)
                    v.webVideoUrl hvno
                refine ⟨u1.trans hblk1, u2.trans hblk2, ?_, ?_⟩
                · simp [List.filterMap_append, hblk3, u3]
                · simp [List.filterMap_append, hblk4, u4]
            | false =>
                obtain ⟨u1, u2, u3, u4⟩ :=
                  runLoop_untouched envSet outcome vs total (i + 1) (p + 2) false
                    (processItem v i total (outcome i) st cache succ).2.1
                    (processItem v i total (outcome i) st cache succ).2.2.1
                    (processItem v i total (outcome i) st cache succ).2.2.2
                    (processingMsg (i + 1) total v.authorMeta.nickName)
                    v.webVideoUrl hvno
                refine ⟨u1.trans hblk1, u2.trans hblk2, ?_, ?_⟩
                · simp [List.filterMap_append, hblk3, u3, stateUpdFor]
                · simp [List.filterMap_append, hblk4, u4, cacheUpdFor]
          · simp only [if_neg hlt]
            obtain ⟨u1, u2, u3, u4⟩ :=
              runLoop_untouched envSet outcome vs total (i + 1) (p + 1) false
                (processItem v i total (outcome i) st cache succ).2.1
                (processItem v i total (outcome i) st cache succ).2.2.1
                (processItem v i total (outcome i) st cache succ).2.2.2
                (processingMsg (i + 1) total v.authorMeta.nickName)
                v.webVideoUrl hvno
            refine ⟨u1.trans hblk1, u2.trans hblk2, ?_, ?_⟩
            · simp [List.filterMap_append, hblk3, u3]
            · simp [List.filterMap_append, hblk4, u4]
  | succ idx ihx =>
      intro rest total i p st cache succ cur t hidx htot hnd hok hfalse
      cases rest with
      | nil => simp at hidx
      | cons v vs =>
          simp only [List.length_cons] at htot
          have hidx' : idx < vs.length := by
            have h2 := hidx
            simp only [List.length_cons] at h2
            omega
          have hget : (v :: vs).get ⟨idx + 1, hidx⟩ = vs.get ⟨idx, hidx'⟩ := rfl
          rw [hget]
          simp only [List.map_cons, List.nodup_cons] at hnd
          have hu_mem : (vs.get ⟨idx, hidx'⟩).webVideoUrl ∈ vs.map fun v => v.webVideoUrl :=
            List.mem_map.mpr ⟨vs.get ⟨idx, hidx'⟩, List.get_mem vs idx hidx', rfl⟩
          have hvne : v.webVideoUrl ≠ (vs.get ⟨idx, hidx'⟩).webVideoUrl := by
            intro he
            rw [he] at hnd
            exact hnd.1 hu_mem
          have hp0 : envSet p = false := by
            have : p = p + 0 := by omega
            rw [this]
            exact hfalse 0 (by omega)
          have hp1 : envSet (p + 1) = false := hfalse 1 (by omega)
          have hlt : i < total - 1 := by omega
          have hok' : outcome ((i + 1) + idx) = ItemOutcome.ok t := by
            have : (i + 1) + idx = i + (idx + 1) := by omega
            rw [this]
            exact hok
          have hfalse' : ∀ j, j ≤ 2 * idx → envSet (p + 2 + j) = false := by
            intro j hj
            have : p + 2 + j = p + (j + 2) := by omega
            rw [this]
            exact hfalse (j + 2) (by omega)
          obtain ⟨ih1, ih2, ih3, ih4⟩ :=
            ihx vs total (i + 1) (p + 2)
              (processItem v i total (outcome i) st cache succ).2.1
              (processItem v i total (outcome i) st cache succ).2.2.1
              (processItem v i total (outcome i) st cache succ).2.2.2
              (processingMsg (i + 1) total v.authorMeta.nickName) t hidx'
              (by omega) hnd.2 hok' hfalse'
          obtain ⟨bp1, bp2, bp3, bp4⟩ :=
            processItem_untouched v i total (outcome i) st cache succ
              (vs.get ⟨idx, hidx'⟩).webVideoUrl hvne
          rw [runLoop]
          simp only [hp0, hp1, Bool.false_or, Bool.false_eq_true, if_false, if_pos hlt]
          refine ⟨ih1, ih2, ?_, ?_⟩
          · simp only [List.filterMap_append, List.filterMap_cons, List.filterMap_nil,
              stateUpdFor_delay, bp3, ih3, List.nil_append, List.append_nil]
          · simp only [List.filterMap_append, List.filterMap_cons, List.filterMap_nil,
              cacheUpdFor_delay, bp4, ih4, List.nil_append, List.append_nil]

/-- Claim C4: with the data model's uniqueness of work-set URLs, for every
item whose transcription call succeeds during a run (item `idx` runs — the
stop flag stays unobserved through its polls — and its outcome is a
transcript `t`), the item's identity afterwards maps in the durable cache
to exactly `t` (written exactly once), and its live status goes
loading-fetch → loading-AI → success and never regresses to `error` within
the run: its full status-update trace ends at `success`. -/
theorem runTranscription_success_durable (prevStop : Bool) (videos : List TikTokVideo)
    (mp3UrlMap : List (String × String)) (cache0 : TranscriptCache)
    (st0 : TranscriptState) (status0 : String)
    (outcome : Nat → ItemOutcome) (envSet : Nat → Bool) (idx : Nat) (t : String)
    (hidx : idx < (videosToTranscribe videos mp3UrlMap cache0).length)
    (hnd : ((videosToTranscribe videos mp3UrlMap cache0).map fun v => v.webVideoUrl).Nodup)
    (hok : outcome idx = ItemOutcome.ok t)
    (hrun : ∀ j, j ≤ 2 * idx → envSet j = false) :
    lookupKey (runTranscription prevStop videos mp3UrlMap cache0 st0 status0 outcome
        envSet).transcriptCache
      ((videosToTranscribe videos mp3UrlMap cache0).get ⟨idx, hidx⟩).webVideoUrl = some t
    ∧ lookupKey (runTranscription prevStop videos mp3UrlMap cache0 st0 status0 outcome
        envSet).transcriptStates
      ((videosToTranscribe videos mp3UrlMap cache0).get ⟨idx, hidx⟩).webVideoUrl
      = some ⟨TStatus.success, t⟩
    ∧ (runTranscription prevStop videos mp3UrlMap cache0 st0 status0 outcome
        envSet).events.filterMap
        (stateUpdFor ((videosToTranscribe videos mp3UrlMap cache0).get
          ⟨idx, hidx⟩).webVideoUrl)
      = [loadingFetchEntry, loadingAIEntry, ⟨TStatus.success, t⟩]
    ∧ (runTranscription prevStop videos mp3UrlMap cache0 st0 status0 outcome
        envSet).events.filterMap
        (cacheUpdFor ((videosToTranscribe videos mp3UrlMap cache0).get
          ⟨idx, hidx⟩).webVideoUrl) = [t] := by
  have hru : runTranscription prevStop videos mp3UrlMap cache0 st0 status0 outcome envSet
      = runLoop envSet outcome (videosToTranscribe videos mp3UrlMap cache0)
          (videosToTranscribe videos mp3UrlMap cache0).length 0 0 false st0 cache0
          0 status0 := rfl
  obtain ⟨h1, h2, h3, h4⟩ :=
    runLoop_reach envSet outcome idx (videosToTranscribe videos mp3UrlMap cache0)
      (videosToTranscribe videos mp3UrlMap cache0).length 0 0 st0 cache0 0 status0
      t hidx (by simp) hnd (by simpa using hok) (by simpa using hrun)
  exact ⟨hru ▸ h2, hru ▸ h1, hru ▸ h3, hru ▸ h4⟩

theorem runTranscription_success_durable_witness :
    (0 < (videosToTranscribe
        [⟨"i1", "v1", "", 0, "", ⟨"a", "n", ""⟩, 0, 0, 0, 0, ⟨0, 0, 0⟩, ⟨"", "", false⟩⟩]
        [("v1", "a.mp3")] []).length
      ∧ ((videosToTranscribe
          [⟨"i1", "v1", "", 0, "", ⟨"a", "n", ""⟩, 0, 0, 0, 0, ⟨0, 0, 0⟩, ⟨"", "", false⟩⟩]
          [("v1", "a.mp3")] []).map fun v => v.webVideoUrl).Nodup
      ∧ (fun _ : Nat => ItemOutcome.ok "xin chào") 0 = ItemOutcome.ok "xin chào"
      ∧ (∀ j, j ≤ 2 * 0 → (fun _ : Nat => false) j = false))
    ∧ lookupKey (runTranscription false
        [⟨"i1", "v1", "", 0, "", ⟨"a", "n", ""⟩, 0, 0, 0, 0, ⟨0, 0, 0⟩, ⟨"", "", false⟩⟩]
        [("v1", "a.mp3")] [] [] "init"
        (fun _ => ItemOutcome.ok "xin chào") (fun _ => false)).transcriptCache
      ((videosToTranscribe
        [⟨"i1", "v1", "", 0, "", ⟨"a", "n", ""⟩, 0, 0, 0, 0, ⟨0, 0, 0⟩, ⟨"", "", false⟩⟩]
        [("v1", "a.mp3")] []).get ⟨0, by decide⟩).webVideoUrl = some "xin chào" :=
  ⟨⟨by decide, by decide, rfl, fun j _ => rfl⟩,
   (runTranscription_success_durable false
      [⟨"i1", "v1", "", 0, "", ⟨"a", "n", ""⟩, 0, 0, 0, 0, ⟨0, 0, 0⟩, ⟨"", "", false⟩⟩]
      [("v1", "a.mp3")] [] [] "init"
      (fun _ => ItemOutcome.ok "xin chào") (fun _ => false) 0 "xin chào"
      (by decide) (by decide) rfl (fun j _ => rfl)).1⟩

theorem runLoop_cache_append (envSet : Nat → Bool) (outcome : Nat → ItemOutcome)
    (cache0 : TranscriptCache) :
    ∀ (rest : List TikTokVideo) (total i p : Nat) (flag : Bool) (st : TranscriptState)
      (suffix : TranscriptCache) (succ : Nat) (cur : String),
    (∀ v ∈ rest, v.webVideoUrl ∉ cache0.map Prod.fst) →
    ∃ s, (runLoop envSet outcome rest total i p flag st (cache0 ++ suffix) succ
        cur).transcriptCache = cache0 ++ s := by
  intro rest
  induction rest with
  | nil =>
      intro total i p flag st suffix succ cur _
      by_cases hc : (flag || envSet p) = true
      · rw [runLoop]
        simp only [hc, if_true]
        exact ⟨suffix, rfl⟩
      · have hc' : (flag || envSet p) = false := Bool.eq_false_iff.mpr hc
        rw [runLoop]
        simp only [hc', Bool.false_eq_true, if_false]
        exact ⟨suffix, rfl⟩
  | cons v vs ih =>
      intro total i p flag st suffix succ cur hdisj
      have hv : v.webVideoUrl ∉ cache0.map Prod.fst := hdisj v (List.mem_cons_self v vs)
      have hvs : ∀ w ∈ vs, w.webVideoUrl ∉ cache0.map Prod.fst :=
        fun w hw => hdisj w (List.mem_cons_of_mem _ hw)
      by_cases hc : (flag || envSet p) = true
      · rw [runLoop]
        simp only [hc, if_true]
        exact ⟨suffix, rfl⟩
      · have hc' : (flag || envSet p) = false := Bool.eq_false_iff.mpr hc
        rw [runLoop]
        simp only [hc', Bool.false_eq_true, if_false]
        have hblk : ∃ s', (processItem v i total (outcome i) st (cache0 ++ suffix)
            succ).2.2.1 = cache0 ++ s' := by
          cases ho : outcome i with
          | fetchErr m => exact ⟨suffix, by simp [processItem]⟩
          | transcribeErr m => exact ⟨suffix, by simp [processItem]⟩
          | ok t =>
              refine ⟨setKey suffix v.webVideoUrl t, ?_⟩
              simp only [processItem]
              exact setKey_append_left _ _ _ _ hv
        obtain ⟨s', hs'⟩ := hblk
        by_cases hlt : i < total - 1
        · simp only [if_pos hlt]
          rw [hs']
          exact ih total (i + 1) (p + 2) (envSet (p + 1))
            (processItem v i total (outcome i) st (cache0 ++ suffix) succ).2.1 s'
            (processItem v i total (outcome i) st (cache0 ++ suffix) succ).2.2.2
            (processingMsg (i + 1) total v.authorMeta.nickName) hvs
        · simp only [if_neg hlt]
          rw [hs']
          exact ih total (i + 1) (p + 1) false
            (processItem v i total (outcome i) st (cache0 ++ suffix) succ).2.1 s'
            (processItem v i total (outcome i) st (cache0 ++ suffix) succ).2.2.2
            (processingMsg (i + 1) total v.authorMeta.nickName) hvs

/-- Claim C3 counterexample: with the durable cache mapping `v1` to the
empty string at run start, the identity is present in the cache, yet the
video is NOT excluded from the work-set (the code's guard is JS truthiness,
not presence), and after a successful run the already-cached key's value is
rewritten from `""` to the new transcript. -/
theorem runTranscription_cache_rewrite_counterexample :
    lookupKey [("v1", "")] "v1" = some ""
    ∧ videosToTranscribe
        [⟨"i1", "v1", "", 0, "", ⟨"a", "n", ""⟩, 0, 0, 0, 0, ⟨0, 0, 0⟩, ⟨"", "", false⟩⟩]
        [("v1", "a.mp3")] [("v1", "")]
      = [⟨"i1", "v1", "", 0, "", ⟨"a", "n", ""⟩, 0, 0, 0, 0, ⟨0, 0, 0⟩, ⟨"", "", false⟩⟩]
    ∧ (runTranscription false
        [⟨"i1", "v1", "", 0, "", ⟨"a", "n", ""⟩, 0, 0, 0, 0, ⟨0, 0, 0⟩, ⟨"", "", false⟩⟩]
        [("v1", "a.mp3")] [("v1", "")] [] "init"
        (fun _ => ItemOutcome.ok "t") (fun _ => false)).transcriptCache
      = [("v1", "t")] := by
  refine ⟨rfl, by decide, by decide⟩

/-- Claim C3 (amended): any identity mapped to a non-empty transcript in
the durable cache at run start is excluded from the work-set even if its
audio-URL mapping is present (its cache lookup is `none` for every work-set
member), and consequently the cache is only appended to during the run: the
final cache is the initial cache followed by a suffix, so no initially
cached key's value is rewritten. -/
theorem runTranscription_cache_append (prevStop : Bool) (videos : List TikTokVideo)
    (mp3UrlMap : List (String × String)) (cache0 : TranscriptCache)
    (st0 : TranscriptState) (status0 : String)
    (outcome : Nat → ItemOutcome) (envSet : Nat → Bool)
    (hne : ∀ pr ∈ cache0, pr.2 ≠ "") :
    (∀ v ∈ videosToTranscribe videos mp3UrlMap cache0,
        lookupKey cache0 v.webVideoUrl = none)
    ∧ (∃ s, (runTranscription prevStop videos mp3UrlMap cache0 st0 status0 outcome
        envSet).transcriptCache = cache0 ++ s)
    ∧ (∀ k tv, lookupKey cache0 k = some tv →
        lookupKey (runTranscription prevStop videos mp3UrlMap cache0 st0 status0
          outcome envSet).transcriptCache k = some tv) := by
  have hwork : ∀ v ∈ videosToTranscribe videos mp3UrlMap cache0,
      lookupKey cache0 v.webVideoUrl = none := by
    intro v hv
    have hf := (List.mem_filter.mp hv).2
    obtain ⟨-, h2⟩ := (Bool.and_eq_true _ _).mp hf
    have hcf : truthy cache0 v.webVideoUrl = false := by
      simpa using h2
    unfold truthy at hcf
    cases hl : lookupKey cache0 v.webVideoUrl with
    | none => rfl
    | some w =>
        rw [hl] at hcf
        simp only [Bool.not_eq_false', beq_iff_eq] at hcf
        have hmem := hne (v.webVideoUrl, w) (lookupKey_some_mem hl)
        simp [hcf] at hmem
  have hdisj : ∀ v ∈ videosToTranscribe videos mp3UrlMap cache0,
      v.webVideoUrl ∉ cache0.map Prod.fst :=
    fun v hv => (lookupKey_eq_none_iff _ _).mp (hwork v hv)
  have hsx := runLoop_cache_append envSet outcome cache0
    (videosToTranscribe videos mp3UrlMap cache0)
    (videosToTranscribe videos mp3UrlMap cache0).length 0 0 false st0 [] 0 status0 hdisj
  rw [List.append_nil] at hsx
  have hru : runTranscription prevStop videos mp3UrlMap cache0 st0 status0 outcome envSet
      = runLoop envSet outcome (videosToTranscribe videos mp3UrlMap cache0)
          (videosToTranscribe videos mp3UrlMap cache0).length 0 0 false st0 cache0
          0 status0 := rfl
  obtain ⟨s, hs⟩ := hsx
  refine ⟨hwork, ⟨s, by rw [hru, hs]⟩, ?_⟩
  intro k tv hk
  rw [hru, hs]
  exact lookupKey_append_some _ hk

theorem runTranscription_cache_append_witness :
    (∀ pr ∈ [("v0", "đã có")], (pr : String × String).2 ≠ "")
    ∧ lookupKey (runTranscription false
        [⟨"i1", "v1", "", 0, "", ⟨"a", "n", ""⟩, 0, 0, 0, 0, ⟨0, 0, 0⟩, ⟨"", "", false⟩⟩]
        [("v1", "a.mp3")] [("v0", "đã có")] [] "init"
        (fun _ => ItemOutcome.ok "t") (fun _ => false)).transcriptCache "v0"
      = some "đã có" :=
  ⟨by decide,
   (runTranscription_cache_append false
      [⟨"i1", "v1", "", 0, "", ⟨"a", "n", ""⟩, 0, 0, 0, 0, ⟨0, 0, 0⟩, ⟨"", "", false⟩⟩]
      [("v1", "a.mp3")] [("v0", "đã có")] [] "init"
      (fun _ => ItemOutcome.ok "t") (fun _ => false) (by decide)).2.2 "v0" "đã có"
      (by decide)⟩
